import Mathlib

/-!
Verification development for the Care Coordinator agent
(`src/agent/agent.py`, `src/agent/appointment_state.py`, `src/agent/config.py`,
`src/agent/tools.py`), shallowly embedded in Lean 4.

Python `Optional[T]` fields become `Option T`; Python `None` is `none`.
Python truthiness (`not self.provider_id`) is modelled explicitly: an
`Optional[int]` is falsy when it is `None` or `0`, an `Optional[str]` when
it is `None` or the empty string.
-/

/-- Python truthiness of an `Optional[int]` value: falsy iff `None` or `0`. -/
def optIntTruthy : Option Int → Bool
  | none => false
  | some n => n != 0

/-- Python truthiness of an `Optional[str]` value: falsy iff `None` or `""`. -/
def optStrTruthy : Option String → Bool
  | none => false
  | some s => s != ""

/-- `Patient` dataclass (`appointment_state.py`).  The `insurance`,
`referrals` and `appointments` fields are only rendered into the prompt text
and are not read by any claim, so they are omitted from the embedding. -/
structure Patient where
  id : Int
  name : String
  dob : String
  pcp : String
  ehr_id : String
  notes : String
deriving DecidableEq, Repr

/-- `AppointmentBooking` dataclass (`appointment_state.py` lines 40-54). -/
structure AppointmentBooking where
  patient : Patient
  provider_id : Option Int := none
  provider_name : Option String := none
  department_id : Option Int := none
  location_name : Option String := none
  appointment_type : Option String := none
  date : Option String := none
  appointment_time : Option String := none
  notes : Option String := none
deriving DecidableEq, Repr

/-- `AppointmentBooking.is_complete` (`appointment_state.py` lines 56-66):
`all(field is not None for field in required)`.  The required list also
contains `self.patient`, which is a non-optional dataclass field and hence
never `None`; it is therefore dropped from the conjunction. -/
def is_complete (b : AppointmentBooking) : Bool :=
  b.provider_id.isSome && b.department_id.isSome && b.appointment_type.isSome
    && b.date.isSome && b.appointment_time.isSome

/-- `AppointmentBooking.missing_fields` (`appointment_state.py` lines 68-83).
Each guard is Python truthiness (`if not self.provider_id`), not an
`is None` test. -/
def missing_fields (b : AppointmentBooking) : List String :=
  (if optIntTruthy b.provider_id then [] else ["provider"])
    ++ (if optIntTruthy b.department_id then [] else ["location/department"])
    ++ (if optStrTruthy b.appointment_type then [] else ["appointment type (NEW/ESTABLISHED)"])
    ++ (if optStrTruthy b.date then [] else ["date"])
    ++ (if optStrTruthy b.appointment_time then [] else ["time"])

/-- The payload sent to `book_appointment` (`to_booking_request`). -/
structure BookingRequest where
  patient_id : Int
  provider_id : Int
  department_id : Int
  appointment_type : String
  date : String
  appointment_time : String
  notes : String
deriving DecidableEq, Repr

/-- `AppointmentBooking.to_booking_request` (`appointment_state.py` lines
85-98).  The Python code raises `ValueError` when incomplete; the embedding
returns `none` in that case.  `self.notes or ""` maps a falsy notes value
(`None` or `""`) to `""`. -/
def to_booking_request (b : AppointmentBooking) : Option BookingRequest :=
  if is_complete b then
    match b.provider_id, b.department_id, b.appointment_type, b.date, b.appointment_time with
    | some pid, some did, some ty, some d, some t =>
        some ⟨b.patient.id, pid, did, ty, d, t, if optStrTruthy b.notes then b.notes.getD "" else ""⟩
    | _, _, _, _, _ => none
  else none

/-- A provider row as selected by the SQL in
`tools.get_providers_by_specialty`. -/
structure ProviderRow where
  id : Int
  first_name : String
  last_name : String
  certification : String
  specialty : String
deriving DecidableEq, Repr

/-- A location row as selected by the SQL in
`tools.get_provider_locations`. -/
structure LocationRow where
  department_id : Int
  location_name : String
  address : String
  phone : String
  hours : String
deriving DecidableEq, Repr

/-- A tool-result dictionary.  Each field models one key the agent or the
tools may put into the returned dict; an absent key is `none`.
`_update_booking_state` reads exactly `found`, `providers`, `locations`,
`appointment_type` and `success` via `result.get`. -/
structure ToolResult where
  found : Option Bool := none
  providers : Option (List ProviderRow) := none
  locations : Option (List LocationRow) := none
  appointment_type : Option String := none
  success : Option Bool := none
  error : Option String := none
  message : Option String := none
  count : Option Nat := none
  reason : Option String := none
  last_visit : Option (Option String) := none
deriving DecidableEq, Repr

/-- Outcome of the HTTP/database round trip inside a tool body:
either the queried rows, a non-200 HTTP response, or a raised exception
(caught by the tool's own `except` clause). -/
inductive Fetch (α : Type) where
  | ok (rows : List α)
  | httpError (text : String)
  | exn (msg : String)
deriving DecidableEq, Repr

/-- `tools.get_providers_by_specialty` (`tools.py` lines 13-56), as a function
of the query outcome: error dict on failure, `found: False` on an empty row
set, otherwise `found: True` with the rows and their count. -/
def get_providers_by_specialty_result (specialty : String) : Fetch ProviderRow → ToolResult
  | .httpError t => { error := some ("Failed to query providers: " ++ t) }
  | .exn m => { error := some ("Tool error: " ++ m) }
  | .ok [] => { found := some false,
                message := some ("No providers found with specialty '" ++ specialty ++ "'") }
  | .ok (r :: rs) => { found := some true, providers := some (r :: rs),
                       count := some (r :: rs).length }

/-- `tools.get_provider_locations` (`tools.py` lines 59-106). -/
def get_provider_locations_result (provider_id : Int) : Fetch LocationRow → ToolResult
  | .httpError t => { error := some ("Failed to query locations: " ++ t) }
  | .exn m => { error := some ("Tool error: " ++ m) }
  | .ok [] => { found := some false,
                message := some ("No locations found for provider ID " ++ toString provider_id) }
  | .ok (r :: rs) => { found := some true, locations := some (r :: rs),
                       count := some (r :: rs).length }

/-- An appointment row as selected by the SQL in
`tools.check_appointment_history`. -/
structure ApptRow where
  date : String
  status : String
deriving DecidableEq, Repr

/-- `tools.check_appointment_history` (`tools.py` lines 186-239): verdict
`ESTABLISHED` when a completed appointment within five years exists, `NEW`
otherwise; on failure an error dict that carries no `appointment_type` key. -/
def check_appointment_history_result : Fetch ApptRow → ToolResult
  | .httpError t => { error := some ("Failed to check history: " ++ t) }
  | .exn m => { error := some ("Tool error: " ++ m) }
  | .ok (a :: _) =>
      { appointment_type := some "ESTABLISHED",
        reason := some ("Patient has seen this provider before (last visit: " ++ a.date ++ ")"),
        last_visit := some (some a.date) }
  | .ok [] =>
      { appointment_type := some "NEW",
        reason := some "Patient has not seen this provider in the last 5 years (or ever)",
        last_visit := some none }

/-- `Agent._update_booking_state` (`agent.py` lines 243-268).  Provider and
location slots are set only when `result.get('found')` is truthy and the
candidate list has exactly one element; `appointment_type` is assigned
`result.get('appointment_type')` unconditionally for every
`check_appointment_history` result; a successful `book_appointment` updates
nothing. -/
def update_booking_state (tool_name : String) (result : ToolResult)
    (b : AppointmentBooking) : AppointmentBooking :=
  let b :=
    if tool_name = "get_providers_by_specialty" && result.found.getD false then
      match result.providers.getD [] with
      | [p] => { b with provider_id := some p.id,
                        provider_name := some ("Dr. " ++ p.first_name ++ " " ++ p.last_name) }
      | _ => b
    else b
  let b :=
    if tool_name = "get_provider_locations" && result.found.getD false then
      match result.locations.getD [] with
      | [l] => { b with department_id := some l.department_id,
                        location_name := some l.location_name }
      | _ => b
    else b
  if tool_name = "check_appointment_history" then
    { b with appointment_type := result.appointment_type }
  else b

/-! ## Structured-call extraction (`Agent._extract_tool_calls`)

The Python code uses three regexes:
`<tool_call>(.*?)</tool_call>` with `re.DOTALL` (via `re.findall`),
`(\w+)\((.*?)\)` anchored by `re.match` (no DOTALL, so `.` excludes the
newline), and `(\w+)=([^,]+)` (via `re.findall`).  They are embedded as
character-list scanners with the same leftmost / non-greedy semantics. -/

/-- `PyVal` models a parsed argument value: either an `int` (after a
successful `int(value)` conversion) or a `str`. -/
inductive PyVal where
  | int (n : Int)
  | str (s : String)
deriving DecidableEq, Repr

/-- `\w` for ASCII input: letters, digits, and the underscore. -/
def isWordChar (c : Char) : Bool := c.isAlphanum || c = '_'

/-- The characters stripped by Python's `str.strip()` (ASCII whitespace). -/
def isPySpace (c : Char) : Bool :=
  c = ' ' || c = '\t' || c = '\n' || c = '\r' || c = '\x0b' || c = '\x0c'

/-- `str.strip()` on a character list. -/
def pyStrip (s : List Char) : List Char :=
  ((s.dropWhile isPySpace).reverse.dropWhile isPySpace).reverse

/-- `s.startswith(pat)` on character lists. -/
def listStartsWith : List Char → List Char → Bool
  | _, [] => true
  | [], _ :: _ => false
  | c :: cs, p :: ps => c = p && listStartsWith cs ps

/-- Split at the leftmost occurrence of `pat`: `some (before, after)` with
`s = before ++ pat ++ after`, or `none` when `pat` does not occur. -/
def splitFirst (s pat : List Char) : Option (List Char × List Char) :=
  match s with
  | [] => if listStartsWith [] pat then some ([], []) else none
  | c :: cs =>
    if listStartsWith (c :: cs) pat then some ([], (c :: cs).drop pat.length)
    else
      match splitFirst cs pat with
      | none => none
      | some (b, a) => some (c :: b, a)

/-- Splitting at an occurrence of a nonempty pattern strictly shortens the
remainder (used for termination of the envelope scan). -/
def splitFirst_length_lt {s pat b a : List Char}
    (h : splitFirst s pat = some (b, a)) (hp : pat ≠ []) : a.length < s.length := by
  induction s generalizing b with
  | nil =>
    obtain ⟨p, ps, rfl⟩ : ∃ p ps, pat = p :: ps := by
      cases pat with
      | nil => exact absurd rfl hp
      | cons p ps => exact ⟨p, ps, rfl⟩
    simp [splitFirst, listStartsWith] at h
  | cons c cs ih =>
    rw [splitFirst] at h
    by_cases hs : listStartsWith (c :: cs) pat = true
    · simp only [hs, if_true, Option.some.injEq, Prod.mk.injEq] at h
      obtain ⟨-, rfl⟩ := h
      have hl : pat.length ≥ 1 := by
        cases pat with
        | nil => exact absurd rfl hp
        | cons _ _ => simp
      have := List.length_drop pat.length (c :: cs)
      simp only [List.length_cons] at *
      omega
    · simp only [hs, if_false, Bool.false_eq_true] at h
      cases hsp : splitFirst cs pat with
      | none => rw [hsp] at h; exact absurd h (by simp)
      | some ba =>
        obtain ⟨b', a'⟩ := ba
        rw [hsp] at h
        simp only [Option.some.injEq, Prod.mk.injEq] at h
        obtain ⟨-, rfl⟩ := h
        have := ih hsp
        simp only [List.length_cons]
        omega

/-- The literal `<tool_call>` opening envelope tag. -/
def openTagChars : List Char := "<tool_call>".data

/-- The literal `</tool_call>` closing envelope tag. -/
def closeTagChars : List Char := "</tool_call>".data

/-- Fuelled scanner behind `findallToolCalls`: each round consumes at least
one opening and one closing tag, so the input length is always enough fuel
(`scanToolCalls_congr` below); structural recursion keeps the definition
kernel-computable. -/
def scanToolCalls : Nat → List Char → List (List Char)
  | 0, _ => []
  | fuel + 1, s =>
    match splitFirst s openTagChars with
    | none => []
    | some (_, rest) =>
      match splitFirst rest closeTagChars with
      | none => []
      | some (content, rest2) => content :: scanToolCalls fuel rest2

/-- `re.findall(r'<tool_call>(.*?)</tool_call>', message, re.DOTALL)`:
repeatedly take the text between the next opening tag and the first closing
tag after it. -/
def findallToolCalls (s : List Char) : List (List Char) :=
  scanToolCalls s.length s

/-- The `(.*?)\)` part of `re.match(r'(\w+)\((.*?)\)', ...)`: the characters
before the first `)`, failing when none exists or a newline intervenes
(`.` does not match the newline without DOTALL). -/
def takeToParen : List Char → Option (List Char)
  | [] => none
  | c :: cs =>
    if c = ')' then some []
    else if c = '\n' then none
    else (takeToParen cs).map (fun l => c :: l)

/-- `re.match(r'(\w+)\((.*?)\)', s)`: `some (name, args)` when `s` starts
with a nonempty word run followed by `(` and a `)`-terminated argument text;
trailing characters after the `)` are ignored (`re.match` anchors only the
start). -/
def funcMatch (s : List Char) : Option (List Char × List Char) :=
  let name := s.takeWhile isWordChar
  match s.dropWhile isWordChar with
  | '(' :: r =>
    if name = [] then none
    else
      match takeToParen r with
      | none => none
      | some args => some (name, args)
  | _ => none

/-- `dropWhile` never lengthens a list (used for termination of the
argument scan). -/
def dropWhile_length_le {α : Type} (p : α → Bool) :
    ∀ l : List α, (l.dropWhile p).length ≤ l.length := by
  intro l
  induction l with
  | nil => simp [List.dropWhile]
  | cons c cs ih =>
    by_cases h : p c
    · simp only [List.dropWhile, h, List.length_cons]
      omega
    · simp [List.dropWhile, h]

/-- Fuelled scanner behind `argScan`: every step consumes at least one
character, so the input length is always enough fuel (`argScanGo_congr`
below); structural recursion keeps the definition kernel-computable. -/
def argScanGo : Nat → List Char → List (List Char × List Char)
  | 0, _ => []
  | _ + 1, [] => []
  | fuel + 1, c :: cs =>
    if isWordChar c then
      match (c :: cs).dropWhile isWordChar with
      | '=' :: r2 =>
        let w := (c :: cs).takeWhile isWordChar
        let v := r2.takeWhile (fun d => d ≠ ',')
        if v = [] then argScanGo fuel cs
        else (w, v) :: argScanGo fuel (r2.drop v.length)
      | _ => argScanGo fuel cs
    else argScanGo fuel cs

/-- `re.findall(r'(\w+)=([^,]+)', args_str)`: scan left to right; at each
position a match needs a maximal nonempty word run, an `=`, and a nonempty
run of non-comma characters (greedy); on failure the scan advances one
character. -/
def argScan (s : List Char) : List (List Char × List Char) :=
  argScanGo s.length s

/-- The single-quote character (`'`). -/
def squote : Char := Char.ofNat 39

/-- The quote-removal step of `_extract_tool_calls`: when the value both
starts and ends with the same quote character, drop the first and last
characters (`value[1:-1]`). -/
def stripQuotes (v : List Char) : List Char :=
  if (v.head? = some '"' && v.getLast? = some '"')
      || (v.head? = some squote && v.getLast? = some squote) then
    (v.drop 1).dropLast
  else v

/-- Numeric value of an ASCII digit character. -/
def digitVal (c : Char) : Nat := c.toNat - 48

/-- Digits with optional single underscores strictly between digits, as
accepted by Python's `int()` after the leading digit. -/
def digSeq : List Char → Option (List Nat)
  | [] => some []
  | '_' :: c :: cs => if c.isDigit then (digSeq cs).map (fun l => digitVal c :: l) else none
  | ['_'] => none
  | c :: cs => if c.isDigit then (digSeq cs).map (fun l => digitVal c :: l) else none

/-- Base-10 value of a digit list. -/
def natOfDigits (l : List Nat) : Nat := l.foldl (fun a d => a * 10 + d) 0

/-- Parse a digit run (first character must be a digit, underscores allowed
between digits). -/
def parseDigits (r : List Char) : Option Nat :=
  match r with
  | [] => none
  | c :: _ => if c.isDigit then (digSeq r).map natOfDigits else none

/-- Python `int(s)` on an ASCII string: strip whitespace, optional sign,
then an underscore-separated digit run; `none` models `ValueError`. -/
def pyInt? (s : List Char) : Option Int :=
  match pyStrip s with
  | '+' :: r => (parseDigits r).map (fun n => (n : Int))
  | '-' :: r => (parseDigits r).map (fun n => -(n : Int))
  | r => (parseDigits r).map (fun n => (n : Int))

/-- Value clean-up in `_extract_tool_calls` (lines 187-197): `strip()`,
remove surrounding quotes if present, then try `int(value)` and keep the
string on `ValueError`. -/
def parseValue (raw : List Char) : PyVal :=
  let v := pyStrip raw
  let v := stripQuotes v
  match pyInt? v with
  | some n => .int n
  | none => .str (String.mk v)

/-- `kwargs[key] = value` on an insertion-ordered dict: overwrite in place
when the key exists, append otherwise. -/
def dictInsert (d : List (String × PyVal)) (k : String) (v : PyVal) :
    List (String × PyVal) :=
  if d.any (fun kv => kv.1 = k) then
    d.map (fun kv => if kv.1 = k then (k, v) else kv)
  else d ++ [(k, v)]

/-- A requested capability invocation: `{"name": ..., "arguments": ...}`. -/
structure ToolCall where
  name : String
  arguments : List (String × PyVal)
deriving DecidableEq, Repr

/-- `Agent._extract_tool_calls` (`agent.py` lines 162-205): find the
envelopes, strip each, match the call expression, and parse the
comma-separated `key=value` pairs; envelopes that fail `func_match` are
silently skipped. -/
def extract_tool_calls (message : String) : List ToolCall :=
  (findallToolCalls message.data).filterMap (fun m =>
    match funcMatch (pyStrip m) with
    | none => none
    | some (name, argsStr) =>
      let kwargs :=
        if pyStrip argsStr ≠ [] then
          (argScan argsStr).foldl
            (fun d kv => dictInsert d (String.mk kv.1) (parseValue kv.2)) []
        else []
      some ⟨String.mk name, kwargs⟩)

/-- The textual form of a comma-separated argument list
`key1=value1, key2=value2, ...` as it appears in an envelope
`name(key="value", key2=123)`. -/
def joinPairs : List (List Char × List Char) → List Char
  | [] => []
  | [(k, v)] => k ++ '=' :: v
  | (k, v) :: kv2 :: rest => (k ++ '=' :: v) ++ ',' :: ' ' :: joinPairs (kv2 :: rest)

/-- One envelope of an assistant message together with the plain text before
it: either a well-formed call expression `name(key=value, ...)` or arbitrary
content on which the call-expression match fails. -/
inductive EnvPiece where
  | good (filler name : List Char) (pairs : List (List Char × List Char))
  | bad (filler content : List Char)

/-- The plain text before the envelope's opening tag. -/
def EnvPiece.filler : EnvPiece → List Char
  | .good f _ _ => f
  | .bad f _ => f

/-- The text between the envelope's opening and closing tags. -/
def EnvPiece.content : EnvPiece → List Char
  | .good _ name pairs => name ++ '(' :: (joinPairs pairs ++ [')'])
  | .bad _ content => content

/-- The invocations one envelope contributes: the named call with every
value parsed by the value grammar for a well-formed envelope, nothing for a
malformed one. -/
def EnvPiece.calls : EnvPiece → List ToolCall
  | .good _ name pairs =>
      [⟨String.mk name, pairs.map (fun kv => (String.mk kv.1, parseValue kv.2))⟩]
  | .bad _ _ => []

/-- An assistant message built from envelopes interleaved with plain text,
ending in the trailing text. -/
def envMsg : List EnvPiece → List Char → List Char
  | [], trail => trail
  | p :: rest, trail =>
      p.filler ++ (openTagChars ++ (p.content ++ (closeTagChars ++ envMsg rest trail)))

/-- Well-formedness of one argument pair: a nonempty word-character key and
a nonempty value containing no comma (the pair separator), no closing
parenthesis, no newline and no tag opener. -/
def pairOk (kv : List Char × List Char) : Prop :=
  kv.1 ≠ [] ∧ (∀ c ∈ kv.1, isWordChar c = true) ∧ kv.2 ≠ []
    ∧ ',' ∉ kv.2 ∧ ')' ∉ kv.2 ∧ '\n' ∉ kv.2 ∧ '<' ∉ kv.2

/-- Well-formedness of one envelope piece: tag-free filler text, and — for a
well-formed call — a nonempty word-character name and well-formed pairs with
pairwise distinct keys, while a malformed envelope has tag-free content
whose stripped body fails the call-expression match. -/
def pieceOk : EnvPiece → Prop
  | .good filler name pairs =>
      '<' ∉ filler ∧ name ≠ [] ∧ (∀ c ∈ name, isWordChar c = true)
        ∧ (∀ kv ∈ pairs, pairOk kv) ∧ (pairs.map Prod.fst).Nodup
  | .bad filler content =>
      '<' ∉ filler ∧ '<' ∉ content ∧ funcMatch (pyStrip content) = none

/-- ASCII `str.lower()` on one character. -/
def lowerChar (c : Char) : Char :=
  if 'A' ≤ c && c ≤ 'Z' then Char.ofNat (c.toNat + 32) else c

/-- `pat in s` (Python substring test). -/
def containsSub (s pat : List Char) : Bool := (splitFirst s pat).isSome

/-- The booking-intent phrase list of `Agent._ready_to_book`. -/
def booking_phrases : List String :=
  ["book the appointment", "book this appointment", "create the appointment",
   "schedule the appointment", "confirm the booking", "proceed with booking",
   "<tool_call>book_appointment"]

/-- `Agent._ready_to_book` (`agent.py` lines 207-222): lowercase the message
and test whether any booking phrase occurs as a substring. -/
def ready_to_book (message : String) : Bool :=
  let ml := message.data.map lowerChar
  booking_phrases.any (fun p => containsSub ml p.data)

/-! ## Configuration (`config.py`) and the capability registry -/

/-- `MAX_ITERATIONS = 10` (`config.py` line 303). -/
def MAX_ITERATIONS : Nat := 10

/-- `WARNING_THRESHOLD = 6` (`config.py` line 304). -/
def WARNING_THRESHOLD : Nat := 6

/-- The nested `"function"` object of a `TOOLS` entry: the schema advertised
to the completion provider.  The long natural-language `description` strings
are elided (no claim reads them); parameter names and required lists are
kept. -/
structure FunctionSchema where
  name : String
  paramNames : List String
  required : List String
deriving DecidableEq, Repr

/-- A value stored in a `TOOLS` entry dict: the `"type"` string or the
`"function"` schema object. -/
inductive ToolsVal where
  | str (s : String)
  | fn (schema : FunctionSchema)
deriving DecidableEq, Repr

/-- `TOOLS` (`config.py` lines 95-300): the OpenAI-format tool list.  Each
entry is a dict with exactly the keys `"type"` and `"function"`. -/
def TOOLS : List (List (String × ToolsVal)) :=
  [ [("type", .str "function"),
     ("function", .fn ⟨"get_providers_by_specialty", ["specialty"], ["specialty"]⟩)],
    [("type", .str "function"),
     ("function", .fn ⟨"get_provider_locations", ["provider_id"], ["provider_id"]⟩)],
    [("type", .str "function"),
     ("function", .fn ⟨"get_available_times",
        ["provider_id", "department_id", "start_date", "end_date"],
        ["provider_id", "department_id", "start_date"]⟩)],
    [("type", .str "function"),
     ("function", .fn ⟨"check_appointment_history", ["patient_id", "provider_id"],
        ["patient_id", "provider_id"]⟩)],
    [("type", .str "function"),
     ("function", .fn ⟨"check_insurance", ["insurance_name"], ["insurance_name"]⟩)],
    [("type", .str "function"),
     ("function", .fn ⟨"get_self_pay_rate", ["specialty"], ["specialty"]⟩)],
    [("type", .str "function"),
     ("function", .fn ⟨"set_patient_insurance", ["patient_id", "insurance_name"],
        ["patient_id", "insurance_name"]⟩)],
    [("type", .str "function"),
     ("function", .fn ⟨"book_appointment",
        ["patient_id", "provider_id", "department_id", "appointment_type", "date",
         "appointment_time", "notes"],
        ["patient_id", "provider_id", "department_id", "appointment_type", "date",
         "appointment_time"]⟩)],
    [("type", .str "function"),
     ("function", .fn ⟨"query_database", ["sql", "params"], ["sql"]⟩)] ]

/-- `d[k]` on a Python dict modelled as an association list: `none` models
`KeyError`. -/
def dictGet {α : Type} (d : List (String × α)) (k : String) : Option α :=
  (d.find? (fun kv => kv.1 = k)).map (fun kv => kv.2)

/-- The dict comprehension of `Agent.__init__` (`agent.py` line 36):
`{tool['name']: tool['function'] for tool in TOOLS}`.  `none` models the
comprehension raising `KeyError`. -/
def build_tool_map : Option (List (ToolsVal × ToolsVal)) :=
  TOOLS.mapM (fun tool =>
    match dictGet tool "name", dictGet tool "function" with
    | some n, some f => some (n, f)
    | _, _ => none)

/-- The keys of `TOOL_FUNCTIONS` (`config.py` lines 82-92), the table that
pairs each capability name with its executable handler, in source order.
The handlers themselves perform HTTP and are supplied to the loop as an
oracle (`ToolEnv`). -/
def TOOL_FUNCTIONS_keys : List String :=
  ["get_providers_by_specialty", "get_provider_locations", "get_available_times",
   "check_appointment_history", "check_insurance", "get_self_pay_rate",
   "set_patient_insurance", "book_appointment", "query_database"]

/-- The name declared inside a `TOOLS` entry's `"function"` schema. -/
def toolsEntryFnName (tool : List (String × ToolsVal)) : Option String :=
  match dictGet tool "function" with
  | some (.fn s) => some s.name
  | _ => none

/-! ## Tool dispatch (`Agent._execute_tool`) -/

/-- The keyword parameters of a tool handler's Python signature
(`tools.py`): required positionals and optionals with defaults. -/
structure ToolSig where
  required : List String
  optional : List String
deriving DecidableEq, Repr

/-- Signatures of the handlers in `tools.py` (what `tool_function(**arguments)`
binds against). -/
def toolSig : String → ToolSig
  | "get_providers_by_specialty" => ⟨["specialty"], []⟩
  | "get_provider_locations" => ⟨["provider_id"], []⟩
  | "get_available_times" => ⟨["provider_id", "department_id", "start_date"], ["end_date"]⟩
  | "check_appointment_history" => ⟨["patient_id", "provider_id"], []⟩
  | "check_insurance" => ⟨["insurance_name"], []⟩
  | "get_self_pay_rate" => ⟨["specialty"], []⟩
  | "set_patient_insurance" => ⟨["patient_id", "insurance_name"], []⟩
  | "book_appointment" =>
      ⟨["patient_id", "provider_id", "department_id", "appointment_type", "date",
        "appointment_time"], ["notes"]⟩
  | "query_database" => ⟨["sql"], ["params"]⟩
  | _ => ⟨[], []⟩

/-- Keyword-argument binding for `f(**arguments)`: every required parameter
must be supplied and every supplied key must be a parameter; otherwise
Python raises `TypeError` before the handler body runs. -/
def bindOk (sig : ToolSig) (args : List (String × PyVal)) : Bool :=
  sig.required.all (fun r => args.any (fun kv => kv.1 = r))
    && args.all (fun kv => (sig.required ++ sig.optional).contains kv.1)

/-- The handler oracle: given a capability name and bound arguments, the
outcome of the handler body.  `.error` models an exception raised during
execution (caught by `_execute_tool`'s `except`); the handlers in `tools.py`
themselves catch internally and return error dicts, but the dispatcher's
contract covers raising handlers as well. -/
def ToolEnv : Type := String → List (String × PyVal) → Except String ToolResult

/-- A record of one invocation of the `book_appointment` handler:
whether it came from the ready-to-book guard path in `chat` (as opposed to
generic tool dispatch), and whether `is_complete()` held at the moment of
invocation. -/
structure BookEvent where
  fromGuard : Bool
  wasComplete : Bool
deriving DecidableEq, Repr

/-- `Agent._execute_tool` (`agent.py` lines 224-241) together with its
`_update_booking_state` side effect.  Returns the result dict, the updated
booking state, and the `book_appointment` handler invocations performed.
An unknown name yields `{"error": "Unknown tool: ..."}`; a `TypeError` from
argument binding or any exception from the handler is caught and reduced to
`{"error": "Tool execution failed: ..."}`. -/
def execute_tool (toolEnv : ToolEnv) (booking : AppointmentBooking) (call : ToolCall) :
    ToolResult × AppointmentBooking × List BookEvent :=
  if ¬ TOOL_FUNCTIONS_keys.contains call.name then
    ({ error := some ("Unknown tool: " ++ call.name) }, booking, [])
  else if ¬ bindOk (toolSig call.name) call.arguments then
    ({ error := some ("Tool execution failed: TypeError: invalid arguments for "
        ++ call.name) }, booking, [])
  else
    let invoked : List BookEvent :=
      if call.name = "book_appointment" then [⟨false, is_complete booking⟩] else []
    match toolEnv call.name call.arguments with
    | .error e => ({ error := some ("Tool execution failed: " ++ e) }, booking, invoked)
    | .ok result => (result, update_booking_state call.name result booking, invoked)

/-! ## The turn controller (`Agent.chat`) -/

/-- A transcript entry: `{"role": ..., "content": ...}`. -/
structure Msg where
  role : String
  content : String
deriving DecidableEq, Repr

/-- The mutable state of an `Agent`: transcript, booking accumulator, and
the per-session iteration counter. -/
structure AgentState where
  messages : List Msg
  booking : AppointmentBooking
  iteration_count : Nat
deriving DecidableEq, Repr

/-- Instrumentation of one `chat` call: loop passes, completion-provider
calls, warning notes appended, and `book_appointment` handler invocations. -/
structure ChatEvents where
  passes : Nat := 0
  providerCalls : Nat := 0
  warnings : Nat := 0
  bookCalls : List BookEvent := []
deriving DecidableEq, Repr

/-- The result of one `chat` call: the returned text, the final agent state,
the instrumentation, and whether the loop ended at the iteration ceiling. -/
structure ChatOutcome where
  text : String
  state : AgentState
  events : ChatEvents
  hitLimit : Bool
deriving DecidableEq, Repr

/-- The completion-provider oracle: for each loop pass (indexed by the
iteration counter after its increment) either the assistant message or a
raised exception. -/
def CompletionProvider : Type := Nat → Except String String

/-- The warning system note (`agent.py` lines 88-92, with
`WARNING_THRESHOLD = 6` interpolated). -/
def warningNoteText : String :=
  "You have made " ++ toString WARNING_THRESHOLD
    ++ " tool calls. Most tasks should complete in 4-8 calls. Reassess your approach and work toward completion."

/-- The fixed fallback text returned when the iteration ceiling is reached
(`agent.py` line 160). -/
def maxIterationsMessage : String :=
  "I've reached the maximum number of actions for this conversation. Let me summarize what we've done so far and we can continue with a fresh start if needed."

/-- Rendering of a result dict into the transcript.  The source uses
`json.dumps(result, indent=2)`; the exact JSON text is not read by any
claim, so a compact stand-in is used. -/
def renderToolResult (r : ToolResult) : String :=
  match r.error with
  | some e => "error: " ++ e
  | none => "result"

/-- The keyword arguments of the guarded `book_appointment(**booking_data)`
call (`agent.py` line 116). -/
def argsOfBookingRequest (r : BookingRequest) : List (String × PyVal) :=
  [("patient_id", .int r.patient_id), ("provider_id", .int r.provider_id),
   ("department_id", .int r.department_id), ("appointment_type", .str r.appointment_type),
   ("date", .str r.date), ("appointment_time", .str r.appointment_time),
   ("notes", .str r.notes)]

/-- The bookkeeping at the top of one loop pass (`agent.py` lines 85-92):
increment the iteration counter and, when it now equals
`WARNING_THRESHOLD`, append the warning system note. -/
def passState (st : AgentState) : AgentState :=
  { st with
     iteration_count := st.iteration_count + 1,
     messages := st.messages
       ++ (if st.iteration_count + 1 = WARNING_THRESHOLD
           then [⟨"system", warningNoteText⟩] else []) }

/-- Instrumentation counterpart of `passState`: one more pass, one more
provider call, and a warning tick when the incremented counter equals the
threshold. -/
def passEvents (st : AgentState) (ev : ChatEvents) : ChatEvents :=
  { ev with
     passes := ev.passes + 1,
     providerCalls := ev.providerCalls + 1,
     warnings := ev.warnings
       + (if st.iteration_count + 1 = WARNING_THRESHOLD then 1 else 0) }

/-- The `for tool_call in tool_calls` body (`agent.py` lines 143-150):
execute each requested tool in order, appending its result entry to the
transcript and folding its state update into the booking accumulator. -/
def execFold (toolEnv : ToolEnv) (calls : List ToolCall)
    (st : AgentState) (ev : ChatEvents) : AgentState × ChatEvents :=
  calls.foldl (fun p call =>
    let r := execute_tool toolEnv p.1.booking call
    ({ p.1 with
        booking := r.2.1,
        messages := p.1.messages
          ++ [⟨"user", "Tool result for " ++ call.name ++ ":\n" ++ renderToolResult r.1⟩] },
     { p.2 with bookCalls := p.2.bookCalls ++ r.2.2 })) (st, ev)

/-- The `while self.iteration_count < MAX_ITERATIONS` loop of `Agent.chat`
(`agent.py` lines 84-160).  The remaining budget
`MAX_ITERATIONS - iteration_count` is passed explicitly; it reaches `0`
exactly when the loop guard fails, which returns the fixed fallback text.
Each pass increments the counter, injects the warning note when the counter
equals `WARNING_THRESHOLD`, calls the provider, and then either commits via
the ready-to-book guard, dispatches extracted tool calls, or returns the
assistant text.  A provider exception (and, through the same enclosing
`try`, an exception from the guarded booking call) returns
`"Error calling OpenAI: ..."`. -/
def chatGo (provider : CompletionProvider) (toolEnv : ToolEnv) :
    Nat → AgentState → ChatEvents → ChatOutcome
  | 0, st, ev => ⟨maxIterationsMessage, st, ev, true⟩
  | budget + 1, st, ev =>
    let st1 := passState st
    let ev1 := passEvents st ev
    match provider st1.iteration_count with
    | .error e => ⟨"Error calling OpenAI: " ++ e, st1, ev1, false⟩
    | .ok assistantMessage =>
      let st2 := { st1 with messages := st1.messages ++ [⟨"assistant", assistantMessage⟩] }
      if ready_to_book assistantMessage then
        if is_complete st2.booking then
          match to_booking_request st2.booking with
          | some req =>
            let ev2 := { ev1 with
                          bookCalls := ev1.bookCalls ++ [⟨true, is_complete st2.booking⟩] }
            match toolEnv "book_appointment" (argsOfBookingRequest req) with
            | .error e => ⟨"Error calling OpenAI: " ++ e, st2, ev2, false⟩
            | .ok result =>
              let st3 := { st2 with
                            messages := st2.messages
                              ++ [⟨"user", "Booking result:\n" ++ renderToolResult result⟩] }
              chatGo provider toolEnv budget st3 ev2
          | none => ⟨"Error calling OpenAI: Cannot create booking request", st2, ev1, false⟩
        else
          let st3 := { st2 with
                        messages := st2.messages
                          ++ [⟨"user", "Cannot book yet. Still need: "
                                ++ String.intercalate ", " (missing_fields st2.booking)⟩] }
          chatGo provider toolEnv budget st3 ev1
      else
        match extract_tool_calls assistantMessage with
        | [] => ⟨assistantMessage, st2, ev1, false⟩
        | call :: calls =>
          let p := execFold toolEnv (call :: calls) st2 ev1
          chatGo provider toolEnv budget p.1 p.2

/-- `Agent.chat` (`agent.py` lines 73-160): append the user message and run
the bounded loop. -/
def chat (provider : CompletionProvider) (toolEnv : ToolEnv)
    (st : AgentState) (user_message : String) : ChatOutcome :=
  let st := { st with messages := st.messages ++ [⟨"user", user_message⟩] }
  chatGo provider toolEnv (MAX_ITERATIONS - st.iteration_count) st {}

/-- `Agent.reset_conversation` (`agent.py` lines 274-278): keep only the
leading system entry, zero the counter, and reconstruct the booking
accumulator for the same patient. -/
def reset_conversation (st : AgentState) : AgentState :=
  { messages := st.messages.take 1,
    booking := { patient := st.booking.patient },
    iteration_count := 0 }

/-- The patient context rendered into the system prompt
(`Agent._build_patient_context`), abbreviated: its exact wording is not read
by any claim. -/
def build_patient_context (p : Patient) : String :=
  "CURRENT PATIENT INFORMATION: " ++ p.name ++ " (DOB " ++ p.dob ++ ", PCP " ++ p.pcp
    ++ ", EHR " ++ p.ehr_id ++ ")"

/-- The opening line of `SYSTEM_PROMPT` (`config.py`); the full prompt text
is not read by any claim. -/
def SYSTEM_PROMPT : String :=
  "You are a Care Coordinator Assistant helping hospital nurses book patient appointments."

/-- The state built by `Agent.__init__` (after the registry, which is the
subject of its own claim): system entry seeded with the prompt and patient
context, fresh booking accumulator, counter at zero. -/
def initial_agent_state (p : Patient) : AgentState :=
  { messages := [⟨"system", SYSTEM_PROMPT ++ "\n\n" ++ build_patient_context p⟩],
    booking := { patient := p },
    iteration_count := 0 }

/-! ## Sessions: sequences of `chat` calls and explicit resets -/

/-- One interaction with an agent session: a `chat` call (with its provider
and tool oracles) or an explicit `reset_conversation`. -/
inductive SessionOp where
  | message (provider : CompletionProvider) (toolEnv : ToolEnv) (text : String)
  | reset

/-- `true` exactly for the explicit reset operation. -/
def SessionOp.isReset : SessionOp → Bool
  | .reset => true
  | _ => false

/-- Session accumulator: the agent state and the total number of warning
notes appended so far. -/
structure SessionAcc where
  state : AgentState
  warningsTotal : Nat

/-- Apply one session operation. -/
def sessionStep (acc : SessionAcc) (op : SessionOp) : SessionAcc :=
  match op with
  | .message provider toolEnv text =>
    let out := chat provider toolEnv acc.state text
    ⟨out.state, acc.warningsTotal + out.events.warnings⟩
  | .reset => ⟨reset_conversation acc.state, acc.warningsTotal⟩

/-- Run a session from a fresh agent for patient `p`. -/
def sessionRun (p : Patient) (ops : List SessionOp) : SessionAcc :=
  ops.foldl sessionStep ⟨initial_agent_state p, 0⟩

/-! ## Concrete instances used by counterexamples and witnesses -/

/-- A concrete patient record. -/
def pJohn : Patient := ⟨1, "John Doe", "1980-01-01", "Dr. PCP", "EHR-1", ""⟩

/-- A booking state whose `provider_id` is the falsy-but-non-null value `0`
while every other required field is set. -/
def bZeroProvider : AppointmentBooking :=
  { patient := pJohn, provider_id := some 0, department_id := some 4,
    appointment_type := some "NEW", date := some "2026-03-25",
    appointment_time := some "14:00" }

/-- A booking state with only `provider_id` set (to a truthy value). -/
def bOnlyProvider : AppointmentBooking := { patient := pJohn, provider_id := some 7 }

/-- A booking state whose `appointment_type` slot is already populated. -/
def bTypeSet : AppointmentBooking := { patient := pJohn, appointment_type := some "NEW" }

/-- A fully populated booking state. -/
def bComplete : AppointmentBooking :=
  { patient := pJohn, provider_id := some 12, provider_name := some "Dr. Greg House",
    department_id := some 3, location_name := some "PPTH",
    appointment_type := some "NEW", date := some "2026-03-25",
    appointment_time := some "14:00" }

/-- An assistant message that carries a `book_appointment` envelope with a
space between the tag and the name, so that `_ready_to_book`'s substring
test does not fire while `_extract_tool_calls` still parses the call. -/
def bypassMsg : String :=
  "<tool_call> book_appointment(patient_id=1, provider_id=2, department_id=3, appointment_type=\"NEW\", date=\"2026-03-25\", appointment_time=\"14:00\")</tool_call>"

/-- Provider oracle for the bypass run: the envelope on the first pass, a
plain closing message on the second. -/
def bypassProvider : CompletionProvider :=
  fun n => if n = 1 then .ok bypassMsg else .ok "Done."

/-- Tool oracle whose handlers all succeed with a bare success dict. -/
def okToolEnv : ToolEnv := fun _ _ => .ok { success := some true }

/-- Tool oracle whose handlers all raise. -/
def boomToolEnv : ToolEnv := fun _ _ => .error "boom"

/-- Provider oracle that always answers with a booking-intent phrase. -/
def proceedProvider : CompletionProvider :=
  fun _ => .ok "Please proceed with booking now."

/-- Provider oracle that always answers with plain text. -/
def plainProvider : CompletionProvider := fun _ => .ok "Hello, nurse."

/-! ## General lemmas about the slot state and the update rules -/

theorem optIntTruthy_eq_isSome {o : Option Int} (h : o ≠ some 0) :
    optIntTruthy o = o.isSome := by
  cases o with
  | none => rfl
  | some n =>
    have hn : n ≠ 0 := fun hn0 => h (by rw [hn0])
    simp [optIntTruthy, hn]

theorem optStrTruthy_eq_isSome {o : Option String} (h : o ≠ some "") :
    optStrTruthy o = o.isSome := by
  cases o with
  | none => rfl
  | some s =>
    have hs : s ≠ "" := fun hs0 => h (by rw [hs0])
    simp [optStrTruthy, hs]

theorem if_nil_single_sublist (c : Bool) (x : String) :
    List.Sublist (if c then ([] : List String) else [x]) [x] := by
  cases c
  · simp
  · simp

/-- `_update_booking_state` never touches `date`, `appointment_time` or
`notes`. -/
theorem update_booking_state_preserves_date_time (n : String) (r : ToolResult)
    (b : AppointmentBooking) :
    (update_booking_state n r b).date = b.date
      ∧ (update_booking_state n r b).appointment_time = b.appointment_time
      ∧ (update_booking_state n r b).notes = b.notes := by
  unfold update_booking_state
  repeat' split
  all_goals exact ⟨rfl, rfl, rfl⟩

/-- C3 counterexample: with `provider_id = 0` (non-null but falsy) and all
other required fields set, `is_complete()` is `True` yet `missing_fields()`
is the non-empty `["provider"]`, refuting both the claimed equivalence and
the claim that `missing_fields` lists exactly the fields that are null. -/
theorem C3_counterexample :
    is_complete bZeroProvider = true
      ∧ missing_fields bZeroProvider = ["provider"]
      ∧ missing_fields bZeroProvider ≠ [] := by
  decide

/-- C3 (amended): `is_complete()` is true iff `missing_fields()` is empty
for every Slot State in which no set field holds a Python-falsy value
(`0` for the id fields, `""` for the string fields) — `is_complete` tests
`is not None` while `missing_fields` tests truthiness, so the equivalence
can fail on falsy non-null values; `missing_fields` always lists its
entries in the fixed stable order provider, location/department,
appointment type, date, time. -/
theorem C3_complete_iff_missing_empty (b : AppointmentBooking)
    (hp : b.provider_id ≠ some 0) (hd : b.department_id ≠ some 0)
    (ht : b.appointment_type ≠ some "") (hdt : b.date ≠ some "")
    (htm : b.appointment_time ≠ some "") :
    (is_complete b = true ↔ missing_fields b = [])
      ∧ List.Sublist (missing_fields b)
          ["provider", "location/department", "appointment type (NEW/ESTABLISHED)",
           "date", "time"] := by
  constructor
  · simp only [is_complete, missing_fields, optIntTruthy_eq_isSome hp,
      optIntTruthy_eq_isSome hd, optStrTruthy_eq_isSome ht,
      optStrTruthy_eq_isSome hdt, optStrTruthy_eq_isSome htm]
    generalize b.provider_id.isSome = x1
    generalize b.department_id.isSome = x2
    generalize b.appointment_type.isSome = x3
    generalize b.date.isSome = x4
    generalize b.appointment_time.isSome = x5
    revert x1 x2 x3 x4 x5
    decide
  · show List.Sublist _ ((((["provider"] ++ ["location/department"])
      ++ ["appointment type (NEW/ESTABLISHED)"]) ++ ["date"]) ++ ["time"])
    exact List.Sublist.append
      (List.Sublist.append
        (List.Sublist.append
          (List.Sublist.append (if_nil_single_sublist _ _) (if_nil_single_sublist _ _))
          (if_nil_single_sublist _ _))
        (if_nil_single_sublist _ _))
      (if_nil_single_sublist _ _)

/-- Witness for C3: the amended equivalence evaluated on a concrete state
with only a (truthy) provider set. -/
theorem C3_witness :
    (is_complete bOnlyProvider = true ↔ missing_fields bOnlyProvider = [])
      ∧ List.Sublist (missing_fields bOnlyProvider)
          ["provider", "location/department", "appointment type (NEW/ESTABLISHED)",
           "date", "time"] :=
  C3_complete_iff_missing_empty bOnlyProvider (by decide) (by decide) (by decide)
    (by decide) (by decide)

/-- C10: every Slot State reachable from the initial all-null state through
the tool-driven state-update rules alone still has `date` and
`appointment_time` null — no capability result populates them — and so
`is_complete()` is false in every such state. -/
theorem C10_date_time_unreachable (p : Patient) (steps : List (String × ToolResult)) :
    (steps.foldl (fun b s => update_booking_state s.1 s.2 b) { patient := p }).date = none
      ∧ (steps.foldl (fun b s => update_booking_state s.1 s.2 b)
          { patient := p }).appointment_time = none
      ∧ is_complete (steps.foldl (fun b s => update_booking_state s.1 s.2 b)
          { patient := p }) = false := by
  have key : ∀ (l : List (String × ToolResult)) (b : AppointmentBooking),
      (l.foldl (fun b s => update_booking_state s.1 s.2 b) b).date = b.date
        ∧ (l.foldl (fun b s => update_booking_state s.1 s.2 b) b).appointment_time
            = b.appointment_time := by
    intro l
    induction l with
    | nil => intro b; exact ⟨rfl, rfl⟩
    | cons s rest ih =>
      intro b
      have h := update_booking_state_preserves_date_time s.1 s.2 b
      simpa [List.foldl_cons, h.1, h.2.1] using ih (update_booking_state s.1 s.2 b)
  have hd := (key steps { patient := p }).1
  have ht := (key steps { patient := p }).2
  refine ⟨hd, ht, ?_⟩
  simp [is_complete, hd]

/-- C5 counterexample: a `check_appointment_history` result that carries no
verdict (here the error dict produced when the tool body catches an
exception) clears an already-set `appointment_type` slot back to null, with
no reset involved. -/
theorem C5_counterexample :
    bTypeSet.appointment_type = some "NEW"
      ∧ (update_booking_state "check_appointment_history"
          (check_appointment_history_result (.exn "connection refused"))
          bTypeSet).appointment_type = none := by
  decide

/-- C5 (amended): no state-update step ever clears a non-null
`provider_id`, `provider_name`, `department_id`, `location_name`, `date`,
`appointment_time` or `notes` slot, and only an explicit reset reconstructs
the accumulator; `appointment_type`, however, is overwritten with
`result.get('appointment_type')` by every `check_appointment_history`
result, so it is cleared to null exactly when such a result carries no
verdict (e.g. an error payload). -/
theorem C5_no_silent_clear (name : String) (r : ToolResult) (b : AppointmentBooking)
    (st : AgentState) :
    (b.provider_id.isSome = true → (update_booking_state name r b).provider_id.isSome = true)
      ∧ (b.provider_name.isSome = true
          → (update_booking_state name r b).provider_name.isSome = true)
      ∧ (b.department_id.isSome = true
          → (update_booking_state name r b).department_id.isSome = true)
      ∧ (b.location_name.isSome = true
          → (update_booking_state name r b).location_name.isSome = true)
      ∧ (update_booking_state name r b).date = b.date
      ∧ (update_booking_state name r b).appointment_time = b.appointment_time
      ∧ (update_booking_state name r b).notes = b.notes
      ∧ (name ≠ "check_appointment_history"
          → (update_booking_state name r b).appointment_type = b.appointment_type)
      ∧ (name = "check_appointment_history"
          → (update_booking_state name r b).appointment_type = r.appointment_type)
      ∧ (reset_conversation st).booking = { patient := st.booking.patient } := by
  refine ⟨?_, ?_, ?_, ?_,
    (update_booking_state_preserves_date_time name r b).1,
    (update_booking_state_preserves_date_time name r b).2.1,
    (update_booking_state_preserves_date_time name r b).2.2, ?_, ?_, rfl⟩
  all_goals
    unfold update_booking_state
    repeat' split
  all_goals simp_all

/-- Witness for C5: the amended preservation facts evaluated on a concrete
populated state and a unique-provider lookup result. -/
theorem C5_witness :
    (bOnlyProvider.provider_id.isSome = true
        ∧ (update_booking_state "get_providers_by_specialty"
            (get_providers_by_specialty_result "Orthopedics"
              (.ok [⟨12, "Greg", "House", "MD", "Orthopedics"⟩]))
            bOnlyProvider).provider_id.isSome = true)
      ∧ (update_booking_state "get_providers_by_specialty"
          (get_providers_by_specialty_result "Orthopedics"
            (.ok [⟨12, "Greg", "House", "MD", "Orthopedics"⟩]))
          bOnlyProvider).appointment_type = bOnlyProvider.appointment_type :=
  ⟨⟨by decide,
    (C5_no_silent_clear "get_providers_by_specialty"
      (get_providers_by_specialty_result "Orthopedics"
        (.ok [⟨12, "Greg", "House", "MD", "Orthopedics"⟩]))
      bOnlyProvider (initial_agent_state pJohn)).1 (by decide)⟩,
    (C5_no_silent_clear "get_providers_by_specialty"
      (get_providers_by_specialty_result "Orthopedics"
        (.ok [⟨12, "Greg", "House", "MD", "Orthopedics"⟩]))
      bOnlyProvider (initial_agent_state pJohn)).2.2.2.2.2.2.2.1 (by decide)⟩

/-- C4: for lookup results processed by the state-update rules, the provider
slots (from a specialty lookup) and the location slots (from a locations
lookup) are auto-populated exactly when the result's candidate count is one;
for zero or several candidates, and for error results, the booking state is
left entirely unchanged. -/
theorem C4_autopopulate_iff_unique (b : AppointmentBooking) (specialty etext : String)
    (provider_id : Int) (rows : List ProviderRow) (lrows : List LocationRow) :
    (∀ p, rows = [p] →
        update_booking_state "get_providers_by_specialty"
          (get_providers_by_specialty_result specialty (.ok rows)) b
          = { b with provider_id := some p.id,
                     provider_name := some ("Dr. " ++ p.first_name ++ " " ++ p.last_name) })
      ∧ (rows.length ≠ 1 →
          update_booking_state "get_providers_by_specialty"
            (get_providers_by_specialty_result specialty (.ok rows)) b = b)
      ∧ (b.provider_id = none →
          ((update_booking_state "get_providers_by_specialty"
              (get_providers_by_specialty_result specialty (.ok rows)) b).provider_id.isSome
            ↔ rows.length = 1))
      ∧ (∀ l, lrows = [l] →
          update_booking_state "get_provider_locations"
            (get_provider_locations_result provider_id (.ok lrows)) b
            = { b with department_id := some l.department_id,
                       location_name := some l.location_name })
      ∧ (lrows.length ≠ 1 →
          update_booking_state "get_provider_locations"
            (get_provider_locations_result provider_id (.ok lrows)) b = b)
      ∧ (b.department_id = none →
          ((update_booking_state "get_provider_locations"
              (get_provider_locations_result provider_id (.ok lrows)) b).department_id.isSome
            ↔ lrows.length = 1))
      ∧ update_booking_state "get_providers_by_specialty"
          (get_providers_by_specialty_result specialty (.httpError etext)) b = b
      ∧ update_booking_state "get_provider_locations"
          (get_provider_locations_result provider_id (.exn etext)) b = b := by
  refine ⟨?_, ?_, ?_, ?_, ?_, ?_, ?_, ?_⟩
  · rintro p rfl
    simp [update_booking_state, get_providers_by_specialty_result]
  · intro h
    match rows with
    | [] => simp [update_booking_state, get_providers_by_specialty_result]
    | [p] => exact absurd rfl h
    | p :: q :: rest => simp [update_booking_state, get_providers_by_specialty_result]
  · intro hnone
    match rows with
    | [] => simp [update_booking_state, get_providers_by_specialty_result, hnone]
    | [p] => simp [update_booking_state, get_providers_by_specialty_result]
    | p :: q :: rest => simp [update_booking_state, get_providers_by_specialty_result, hnone]
  · rintro l rfl
    simp [update_booking_state, get_provider_locations_result]
  · intro h
    match lrows with
    | [] => simp [update_booking_state, get_provider_locations_result]
    | [l] => exact absurd rfl h
    | l :: m :: rest => simp [update_booking_state, get_provider_locations_result]
  · intro hnone
    match lrows with
    | [] => simp [update_booking_state, get_provider_locations_result, hnone]
    | [l] => simp [update_booking_state, get_provider_locations_result]
    | l :: m :: rest => simp [update_booking_state, get_provider_locations_result, hnone]
  · simp [update_booking_state, get_providers_by_specialty_result]
  · simp [update_booking_state, get_provider_locations_result]

/-- Witness for C4: a one-candidate specialty lookup populates the provider
slots of the all-null state; a two-candidate locations lookup leaves it
unchanged. -/
theorem C4_witness :
    update_booking_state "get_providers_by_specialty"
        (get_providers_by_specialty_result "Orthopedics"
          (.ok [⟨12, "Greg", "House", "MD", "Orthopedics"⟩]))
        { patient := pJohn }
      = { (({ patient := pJohn } : AppointmentBooking)) with
          provider_id := some 12, provider_name := some "Dr. Greg House" }
      ∧ update_booking_state "get_provider_locations"
          (get_provider_locations_result 12
            (.ok [⟨3, "PPTH", "a", "p", "h"⟩, ⟨4, "Clinic", "a", "p", "h"⟩]))
          { patient := pJohn }
        = { patient := pJohn } :=
  ⟨by
    have h := (C4_autopopulate_iff_unique { patient := pJohn } "Orthopedics" "" 12
      [⟨12, "Greg", "House", "MD", "Orthopedics"⟩] []).1
      ⟨12, "Greg", "House", "MD", "Orthopedics"⟩ rfl
    simpa using h,
   by
    have h := (C4_autopopulate_iff_unique { patient := pJohn } "Orthopedics" "" 12
      [] [⟨3, "PPTH", "a", "p", "h"⟩, ⟨4, "Clinic", "a", "p", "h"⟩]).2.2.2.2.1
      (by decide)
    simpa using h⟩

/-- C2: the capability registry built in `Agent.__init__` —
`{tool['name']: tool['function'] for tool in TOOLS}` — cannot be
constructed: no `TOOLS` entry has a top-level `'name'` key (the name lives
inside the `'function'` schema, and the executable handlers live in the
separate `TOOL_FUNCTIONS` table), so the comprehension raises `KeyError`
on its first entry instead of producing a name-to-handler map.  The third
conjunct shows the declared schema names do line up one-for-one with the
keys of the intended handler table `TOOL_FUNCTIONS`. -/
theorem C2_registry_construction_fails :
    build_tool_map = none
      ∧ TOOLS.all (fun tool => (dictGet tool "name").isNone) = true
      ∧ TOOLS.map toolsEntryFnName = TOOL_FUNCTIONS_keys.map some := by
  decide

/-- C8: `_execute_tool` always returns a well-formed result object and never
lets an exception reach the turn controller: an unknown capability name
yields the `"Unknown tool: ..."` error marker with the booking state
untouched and the handler never invoked; a `TypeError` from keyword-argument
binding and any exception raised by the handler are caught and reduced to a
`"Tool execution failed: ..."` error marker. -/
theorem C8_dispatcher_never_raises (toolEnv : ToolEnv) (b : AppointmentBooking)
    (call : ToolCall) :
    (TOOL_FUNCTIONS_keys.contains call.name = false →
        execute_tool toolEnv b call
          = ({ error := some ("Unknown tool: " ++ call.name) }, b, []))
      ∧ (TOOL_FUNCTIONS_keys.contains call.name = true →
          bindOk (toolSig call.name) call.arguments = false →
          execute_tool toolEnv b call
            = ({ error := some ("Tool execution failed: TypeError: invalid arguments for "
                  ++ call.name) }, b, []))
      ∧ (∀ e, TOOL_FUNCTIONS_keys.contains call.name = true →
          bindOk (toolSig call.name) call.arguments = true →
          toolEnv call.name call.arguments = .error e →
          (execute_tool toolEnv b call).1.error = some ("Tool execution failed: " ++ e)
            ∧ (execute_tool toolEnv b call).2.1 = b)
      ∧ (∀ r, TOOL_FUNCTIONS_keys.contains call.name = true →
          bindOk (toolSig call.name) call.arguments = true →
          toolEnv call.name call.arguments = .ok r →
          execute_tool toolEnv b call
            = (r, update_booking_state call.name r b,
               if call.name = "book_appointment" then [⟨false, is_complete b⟩] else [])) := by
  refine ⟨?_, ?_, ?_, ?_⟩
  · intro h
    have hmem : call.name ∉ TOOL_FUNCTIONS_keys := by simpa using h
    simp [execute_tool, hmem]
  · intro h hb
    have hmem : call.name ∈ TOOL_FUNCTIONS_keys := by simpa using h
    simp [execute_tool, hmem, hb]
  · intro e h hb he
    have hmem : call.name ∈ TOOL_FUNCTIONS_keys := by simpa using h
    simp [execute_tool, hmem, hb, he]
  · intro r h hb hr
    have hmem : call.name ∈ TOOL_FUNCTIONS_keys := by simpa using h
    simp [execute_tool, hmem, hb, hr]

/-- Witness for C8: an unknown capability, a binding mismatch, and a raising
handler, each reduced to an error-marked result at concrete inputs. -/
theorem C8_witness :
    execute_tool okToolEnv bOnlyProvider ⟨"frobnicate", []⟩
        = ({ error := some "Unknown tool: frobnicate" }, bOnlyProvider, [])
      ∧ execute_tool okToolEnv bOnlyProvider ⟨"get_providers_by_specialty", []⟩
          = ({ error := some
                "Tool execution failed: TypeError: invalid arguments for get_providers_by_specialty" },
             bOnlyProvider, [])
      ∧ (execute_tool boomToolEnv bOnlyProvider
            ⟨"get_providers_by_specialty", [("specialty", .str "Orthopedics")]⟩).1.error
          = some "Tool execution failed: boom" :=
  ⟨(C8_dispatcher_never_raises okToolEnv bOnlyProvider ⟨"frobnicate", []⟩).1 (by decide),
   (C8_dispatcher_never_raises okToolEnv bOnlyProvider
      ⟨"get_providers_by_specialty", []⟩).2.1 (by decide) (by decide),
   ((C8_dispatcher_never_raises boomToolEnv bOnlyProvider
      ⟨"get_providers_by_specialty", [("specialty", .str "Orthopedics")]⟩).2.2.1 "boom"
      (by decide) (by decide) rfl).1⟩

/-! ## Lemmas about the turn-controller loop -/

/-- Every `book_appointment` invocation recorded by generic tool dispatch is
marked as coming from the dispatch path, not the ready-to-book guard. -/
theorem execute_tool_events_fromGuard (toolEnv : ToolEnv) (b : AppointmentBooking)
    (call : ToolCall) :
    ∀ e ∈ (execute_tool toolEnv b call).2.2, e.fromGuard = false := by
  unfold execute_tool
  repeat' split
  all_goals intro e he
  all_goals simp_all

/-- The tool-execution fold touches only the transcript, the booking state
and the book-invocation log: counter, passes, provider calls and warnings
are untouched. -/
theorem execFold_counts (toolEnv : ToolEnv) (calls : List ToolCall) :
    ∀ st ev,
      (execFold toolEnv calls st ev).1.iteration_count = st.iteration_count
        ∧ (execFold toolEnv calls st ev).2.passes = ev.passes
        ∧ (execFold toolEnv calls st ev).2.providerCalls = ev.providerCalls
        ∧ (execFold toolEnv calls st ev).2.warnings = ev.warnings := by
  induction calls with
  | nil => intro st ev; exact ⟨rfl, rfl, rfl, rfl⟩
  | cons c cs ih => intro st ev; exact ih _ _

/-- Book-invocation records added by the tool-execution fold all come from
the dispatch path. -/
theorem execFold_bookCalls (toolEnv : ToolEnv) (calls : List ToolCall) :
    ∀ st ev e, e ∈ (execFold toolEnv calls st ev).2.bookCalls →
      e ∈ ev.bookCalls ∨ e.fromGuard = false := by
  induction calls with
  | nil => intro st ev e he; exact Or.inl he
  | cons c cs ih =>
    intro st ev e he
    rcases ih _ _ e he with h | h
    · simp only [List.mem_append] at h
      rcases h with h | h
      · exact Or.inl h
      · exact Or.inr (execute_tool_events_fromGuard toolEnv st.booking c e h)
    · exact Or.inr h

theorem passState_iteration_count (st : AgentState) :
    (passState st).iteration_count = st.iteration_count + 1 := rfl

theorem passState_booking (st : AgentState) : (passState st).booking = st.booking := rfl

/-- One unfolding of the loop: every pass increments the counter by exactly
one, makes exactly one provider call, emits the warning tick exactly when
the incremented counter equals the threshold, records guard-path book
invocations only with a complete state, and either recurses or returns a
non-ceiling outcome. -/
theorem chatGo_succ_spec (provider : CompletionProvider) (toolEnv : ToolEnv)
    (budget : Nat) (st : AgentState) (ev : ChatEvents) :
    ∃ (st' : AgentState) (ev' : ChatEvents),
      st'.iteration_count = st.iteration_count + 1
      ∧ ev'.passes = ev.passes + 1
      ∧ ev'.providerCalls = ev.providerCalls + 1
      ∧ ev'.warnings = ev.warnings
          + (if st.iteration_count + 1 = WARNING_THRESHOLD then 1 else 0)
      ∧ (∀ e ∈ ev'.bookCalls,
          e ∈ ev.bookCalls ∨ e.fromGuard = false ∨ (e.fromGuard = true ∧ e.wasComplete = true))
      ∧ (chatGo provider toolEnv (budget + 1) st ev = chatGo provider toolEnv budget st' ev'
          ∨ ∃ txt, chatGo provider toolEnv (budget + 1) st ev = ⟨txt, st', ev', false⟩) := by
  rw [chatGo]
  dsimp only [passState_iteration_count, passState_booking]
  cases hp : provider (st.iteration_count + 1) with
  | error e =>
    dsimp only
    exact ⟨passState st, passEvents st ev, rfl, rfl, rfl, rfl,
      fun x hx => Or.inl hx, Or.inr ⟨_, rfl⟩⟩
  | ok m =>
    dsimp only
    by_cases hr : ready_to_book m = true
    · rw [if_pos hr]
      by_cases hc : is_complete st.booking = true
      · rw [if_pos hc]
        cases hreq : to_booking_request st.booking with
        | none =>
          dsimp only
          exact ⟨_, passEvents st ev, rfl, rfl, rfl, rfl,
            fun x hx => Or.inl hx, Or.inr ⟨_, rfl⟩⟩
        | some req =>
          dsimp only
          cases hres : toolEnv "book_appointment" (argsOfBookingRequest req) with
          | error e =>
            dsimp only
            refine ⟨_, { passEvents st ev with
                bookCalls := (passEvents st ev).bookCalls
                  ++ [⟨true, is_complete st.booking⟩] },
              rfl, rfl, rfl, rfl, ?_, Or.inr ⟨_, rfl⟩⟩
            intro x hx
            simp only [List.mem_append, List.mem_singleton] at hx
            rcases hx with hx | hx
            · exact Or.inl hx
            · subst hx; exact Or.inr (Or.inr ⟨rfl, hc⟩)
          | ok result =>
            dsimp only
            refine ⟨_, { passEvents st ev with
                bookCalls := (passEvents st ev).bookCalls
                  ++ [⟨true, is_complete st.booking⟩] },
              rfl, rfl, rfl, rfl, ?_, Or.inl rfl⟩
            intro x hx
            simp only [List.mem_append, List.mem_singleton] at hx
            rcases hx with hx | hx
            · exact Or.inl hx
            · subst hx; exact Or.inr (Or.inr ⟨rfl, hc⟩)
      · rw [if_neg hc]
        exact ⟨_, passEvents st ev, rfl, rfl, rfl, rfl,
          fun x hx => Or.inl hx, Or.inl rfl⟩
    · rw [if_neg hr]
      cases hcalls : extract_tool_calls m with
      | nil =>
        dsimp only
        exact ⟨_, passEvents st ev, rfl, rfl, rfl, rfl,
          fun x hx => Or.inl hx, Or.inr ⟨_, rfl⟩⟩
      | cons c cs =>
        dsimp only
        refine ⟨(execFold toolEnv (c :: cs)
            { passState st with
               messages := (passState st).messages ++ [⟨"assistant", m⟩] }
            (passEvents st ev)).1,
          (execFold toolEnv (c :: cs)
            { passState st with
               messages := (passState st).messages ++ [⟨"assistant", m⟩] }
            (passEvents st ev)).2,
          ?_, ?_, ?_, ?_, ?_, Or.inl rfl⟩
        · exact (execFold_counts _ _ _ _).1
        · exact (execFold_counts _ _ _ _).2.1
        · exact (execFold_counts _ _ _ _).2.2.1
        · exact (execFold_counts _ _ _ _).2.2.2
        · intro x hx
          rcases execFold_bookCalls _ _ _ _ x hx with h | h
          · exact Or.inl h
          · exact Or.inr (Or.inl h)

/-- Counter and pass accounting of the loop: the counter never decreases,
grows by exactly the number of passes, the passes never exceed the budget,
and every pass makes exactly one provider call. -/
theorem chatGo_counts (provider : CompletionProvider) (toolEnv : ToolEnv) :
    ∀ budget st ev,
      st.iteration_count ≤ (chatGo provider toolEnv budget st ev).state.iteration_count
        ∧ (chatGo provider toolEnv budget st ev).state.iteration_count + ev.passes
            = st.iteration_count + (chatGo provider toolEnv budget st ev).events.passes
        ∧ (chatGo provider toolEnv budget st ev).events.passes ≤ ev.passes + budget
        ∧ (chatGo provider toolEnv budget st ev).events.passes + ev.providerCalls
            = (chatGo provider toolEnv budget st ev).events.providerCalls + ev.passes := by
  intro budget
  induction budget with
  | zero =>
    intro st ev
    exact ⟨Nat.le_refl _, rfl, Nat.le_refl _, Nat.add_comm _ _⟩
  | succ b ih =>
    intro st ev
    obtain ⟨st', ev', hc, hpasses, hcalls, hwarn, hbook, hgo⟩ :=
      chatGo_succ_spec provider toolEnv b st ev
    rcases hgo with hgo | ⟨txt, hgo⟩
    · rw [hgo]
      obtain ⟨h1, h2, h3, h4⟩ := ih st' ev'
      refine ⟨by omega, by omega, by omega, by omega⟩
    · rw [hgo]
      dsimp only
      refine ⟨by omega, by omega, by omega, by omega⟩

/-- When the loop ends at the iteration ceiling, the returned text is the
fixed fallback message. -/
theorem chatGo_hitLimit_text (provider : CompletionProvider) (toolEnv : ToolEnv) :
    ∀ budget st ev,
      (chatGo provider toolEnv budget st ev).hitLimit = true →
      (chatGo provider toolEnv budget st ev).text = maxIterationsMessage := by
  intro budget
  induction budget with
  | zero => intro st ev _; rfl
  | succ b ih =>
    intro st ev h
    obtain ⟨st', ev', _, _, _, _, _, hgo⟩ := chatGo_succ_spec provider toolEnv b st ev
    rcases hgo with hgo | ⟨txt, hgo⟩
    · rw [hgo] at h ⊢
      exact ih st' ev' h
    · rw [hgo] at h
      simp at h

/-- Warning accounting: a run emits exactly one warning note when its
counter interval crosses the threshold, and none otherwise. -/
theorem chatGo_warnings (provider : CompletionProvider) (toolEnv : ToolEnv) :
    ∀ budget st ev,
      (chatGo provider toolEnv budget st ev).events.warnings
        = ev.warnings
          + (if st.iteration_count < WARNING_THRESHOLD
                ∧ WARNING_THRESHOLD ≤ (chatGo provider toolEnv budget st ev).state.iteration_count
             then 1 else 0) := by
  intro budget
  induction budget with
  | zero =>
    intro st ev
    simp only [chatGo]
    have h : ¬(st.iteration_count < WARNING_THRESHOLD
        ∧ WARNING_THRESHOLD ≤ st.iteration_count) := by omega
    simp [h]
  | succ b ih =>
    intro st ev
    obtain ⟨st', ev', hc, hpasses, hcalls, hwarn, hbook, hgo⟩ :=
      chatGo_succ_spec provider toolEnv b st ev
    have hmono := (chatGo_counts provider toolEnv b st' ev').1
    rcases hgo with hgo | ⟨txt, hgo⟩
    · rw [hgo, ih st' ev', hwarn, hc]
      rw [hc] at hmono
      split_ifs <;> omega
    · rw [hgo]
      dsimp only
      rw [hwarn, hc]
      split_ifs <;> omega

/-- Guard-path book invocations always happen with a complete slot state. -/
theorem chatGo_guard (provider : CompletionProvider) (toolEnv : ToolEnv) :
    ∀ budget st ev,
      (∀ e ∈ ev.bookCalls, e.fromGuard = true → e.wasComplete = true) →
      ∀ e ∈ (chatGo provider toolEnv budget st ev).events.bookCalls,
        e.fromGuard = true → e.wasComplete = true := by
  intro budget
  induction budget with
  | zero => intro st ev hinv; exact hinv
  | succ b ih =>
    intro st ev hinv
    obtain ⟨st', ev', _, _, _, _, hbook, hgo⟩ := chatGo_succ_spec provider toolEnv b st ev
    have hinv' : ∀ e ∈ ev'.bookCalls, e.fromGuard = true → e.wasComplete = true := by
      intro e he hg
      rcases hbook e he with h | h | h
      · exact hinv e h hg
      · rw [hg] at h; cases h
      · exact h.2
    rcases hgo with hgo | ⟨txt, hgo⟩
    · rw [hgo]
      exact ih st' ev' hinv'
    · rw [hgo]
      exact hinv'

/-- The iteration counter never decreases across a `chat` call. -/
theorem chat_count_le (provider : CompletionProvider) (toolEnv : ToolEnv)
    (st : AgentState) (m : String) :
    st.iteration_count ≤ (chat provider toolEnv st m).state.iteration_count := by
  have h := (chatGo_counts provider toolEnv (MAX_ITERATIONS - st.iteration_count)
    { st with messages := st.messages ++ [⟨"user", m⟩] } {}).1
  simpa only [chat] using h

/-- Warning notes appended by one `chat` call: one exactly when the counter
crosses the threshold during the call. -/
theorem chat_warnings (provider : CompletionProvider) (toolEnv : ToolEnv)
    (st : AgentState) (m : String) :
    (chat provider toolEnv st m).events.warnings
      = if st.iteration_count < WARNING_THRESHOLD
            ∧ WARNING_THRESHOLD ≤ (chat provider toolEnv st m).state.iteration_count
        then 1 else 0 := by
  have h := chatGo_warnings provider toolEnv (MAX_ITERATIONS - st.iteration_count)
    { st with messages := st.messages ++ [⟨"user", m⟩] } {}
  simp only [chat]
  rw [h]
  simp

/-- C7: every `chat` call performs at most `MAX_ITERATIONS` loop passes and
hence at most that many provider calls (exactly one per pass); whenever the
loop ends at the ceiling it returns the fixed fallback message; and a call
entered with the counter already at or above the ceiling returns the
fallback immediately, with zero provider calls and the state untouched. -/
theorem C7_iteration_ceiling (provider : CompletionProvider) (toolEnv : ToolEnv)
    (st : AgentState) (msg : String) :
    (chat provider toolEnv st msg).events.passes ≤ MAX_ITERATIONS
      ∧ (chat provider toolEnv st msg).events.providerCalls
          = (chat provider toolEnv st msg).events.passes
      ∧ (chat provider toolEnv st msg).state.iteration_count
          = st.iteration_count + (chat provider toolEnv st msg).events.passes
      ∧ ((chat provider toolEnv st msg).hitLimit = true →
          (chat provider toolEnv st msg).text = maxIterationsMessage)
      ∧ (MAX_ITERATIONS ≤ st.iteration_count →
          (chat provider toolEnv st msg).text = maxIterationsMessage
            ∧ (chat provider toolEnv st msg).events.providerCalls = 0
            ∧ (chat provider toolEnv st msg).state.booking = st.booking) := by
  obtain ⟨h1, h2, h3, h4⟩ := chatGo_counts provider toolEnv
    (MAX_ITERATIONS - st.iteration_count)
    { st with messages := st.messages ++ [⟨"user", msg⟩] } {}
  have hlim := chatGo_hitLimit_text provider toolEnv (MAX_ITERATIONS - st.iteration_count)
    { st with messages := st.messages ++ [⟨"user", msg⟩] } {}
  dsimp only at h1 h2 h3 h4
  simp only [chat]
  refine ⟨by omega, by omega, by omega, hlim, ?_⟩
  intro hle
  have hb : MAX_ITERATIONS - st.iteration_count = 0 := by omega
  rw [hb]
  exact ⟨rfl, rfl, rfl⟩

/-- Witness for C7: a `chat` call entered at the ceiling returns the
fallback text with zero provider calls. -/
theorem C7_witness :
    (chat plainProvider okToolEnv
        { initial_agent_state pJohn with iteration_count := 10 } "hi").text
        = maxIterationsMessage
      ∧ (chat plainProvider okToolEnv
          { initial_agent_state pJohn with iteration_count := 10 } "hi").events.providerCalls
          = 0 :=
  ⟨((C7_iteration_ceiling plainProvider okToolEnv
      { initial_agent_state pJohn with iteration_count := 10 } "hi").2.2.2.2
      (by decide)).1,
   ((C7_iteration_ceiling plainProvider okToolEnv
      { initial_agent_state pJohn with iteration_count := 10 } "hi").2.2.2.2
      (by decide)).2.1⟩

/-- C6: the warning threshold sits strictly below the ceiling; within a
session the iteration counter never decreases across a `chat` call and is
set to zero only by the explicit reset; and over any reset-free session
from a fresh agent, the warning note is appended exactly once — on the
loop pass at which the counter reaches the threshold — and never a second
time (total warnings are one exactly when the counter has reached the
threshold, zero before). -/
theorem C6_warning_once :
    WARNING_THRESHOLD < MAX_ITERATIONS
      ∧ (∀ (provider : CompletionProvider) (toolEnv : ToolEnv) (st : AgentState) (m : String),
          st.iteration_count ≤ (chat provider toolEnv st m).state.iteration_count)
      ∧ (∀ st : AgentState, (reset_conversation st).iteration_count = 0)
      ∧ (∀ (p : Patient) (ops : List SessionOp),
          (∀ op ∈ ops, op.isReset = false) →
          (sessionRun p ops).warningsTotal
            = if WARNING_THRESHOLD ≤ (sessionRun p ops).state.iteration_count
              then 1 else 0) := by
  refine ⟨by decide, chat_count_le, fun st => rfl, ?_⟩
  intro p ops hall
  have key : ∀ (l : List SessionOp) (acc : SessionAcc),
      (∀ op ∈ l, op.isReset = false) →
      acc.warningsTotal
        = (if WARNING_THRESHOLD ≤ acc.state.iteration_count then 1 else 0) →
      (l.foldl sessionStep acc).warningsTotal
        = if WARNING_THRESHOLD ≤ (l.foldl sessionStep acc).state.iteration_count
          then 1 else 0 := by
    intro l
    induction l with
    | nil => intro acc _ hinv; exact hinv
    | cons op rest ih =>
      intro acc hall2 hinv
      have hop : op.isReset = false := hall2 op (List.mem_cons_self _ _)
      simp only [List.foldl_cons]
      refine ih (sessionStep acc op) (fun o ho => hall2 o (List.mem_cons_of_mem _ ho)) ?_
      cases op with
      | reset => simp [SessionOp.isReset] at hop
      | message prov tenv txt =>
        show acc.warningsTotal + (chat prov tenv acc.state txt).events.warnings
          = if WARNING_THRESHOLD
                ≤ (chat prov tenv acc.state txt).state.iteration_count
            then 1 else 0
        have hw := chat_warnings prov tenv acc.state txt
        have hm := chat_count_le prov tenv acc.state txt
        rw [hw, hinv]
        split_ifs <;> omega
  have h0 : (0 : Nat)
      = if WARNING_THRESHOLD ≤ (initial_agent_state p).iteration_count then 1 else 0 := by
    simp [initial_agent_state, WARNING_THRESHOLD]
  exact key ops ⟨initial_agent_state p, 0⟩ hall h0

/-- Witness for C6: a reset-free session whose single `chat` call runs the
loop to the ceiling accumulates exactly one warning note. -/
theorem C6_witness :
    (∀ op ∈ [SessionOp.message proceedProvider okToolEnv "go"], op.isReset = false)
      ∧ (sessionRun pJohn [SessionOp.message proceedProvider okToolEnv "go"]).warningsTotal
          = if WARNING_THRESHOLD
                ≤ (sessionRun pJohn
                    [SessionOp.message proceedProvider okToolEnv "go"]).state.iteration_count
            then 1 else 0 :=
  ⟨by intro op hop
      rw [List.mem_singleton] at hop
      subst hop
      rfl,
   C6_warning_once.2.2.2 pJohn [SessionOp.message proceedProvider okToolEnv "go"]
     (by intro op hop
         rw [List.mem_singleton] at hop
         subst hop
         rfl)⟩

set_option maxRecDepth 1000000 in
/-- C1 counterexample: an assistant message carrying a `book_appointment`
envelope with a space between `<tool_call>` and the name evades every
booking phrase of `_ready_to_book`, so the turn controller dispatches it as
a generic tool: the `book_appointment` handler is invoked once, through the
dispatch path, while `is_complete()` is false — refuting the claim that the
commit handler is never invoked on an incomplete state. -/
theorem C1_counterexample :
    is_complete (initial_agent_state pJohn).booking = false
      ∧ ready_to_book bypassMsg = false
      ∧ (chat bypassProvider okToolEnv (initial_agent_state pJohn) "book it").events.bookCalls
          = [⟨false, false⟩] := by
  refine ⟨by decide, by decide, by decide⟩

/-- C1 (amended): the ready-to-book commit path never invokes the
`book_appointment` handler while `is_complete()` is false — every
guard-path invocation in any `chat` run happens with a complete state — and
whenever the intent detector fires on an incomplete state the pass appends
the synthesized `Cannot book yet. Still need: ...` message listing the
missing fields and invokes no handler; the handler can, however, still be
dispatched like any other tool when the envelope text evades the phrase
detector (e.g. whitespace between the tag and the name), as the
counterexample shows. -/
theorem C1_commit_guard :
    (∀ (provider : CompletionProvider) (toolEnv : ToolEnv) (st : AgentState)
        (m : String) (e : BookEvent),
        e ∈ (chat provider toolEnv st m).events.bookCalls →
        e.fromGuard = true → e.wasComplete = true)
      ∧ (∀ (provider : CompletionProvider) (toolEnv : ToolEnv) (budget : Nat)
          (st : AgentState) (ev : ChatEvents) (m : String),
          provider (st.iteration_count + 1) = .ok m →
          ready_to_book m = true →
          is_complete st.booking = false →
          chatGo provider toolEnv (budget + 1) st ev
            = chatGo provider toolEnv budget
                { passState st with
                   messages := ((passState st).messages ++ [⟨"assistant", m⟩])
                     ++ [⟨"user", "Cannot book yet. Still need: "
                           ++ String.intercalate ", " (missing_fields st.booking)⟩] }
                (passEvents st ev)) := by
  constructor
  · intro provider toolEnv st m e he hg
    exact chatGo_guard provider toolEnv (MAX_ITERATIONS - st.iteration_count)
      { st with messages := st.messages ++ [⟨"user", m⟩] } {}
      (fun x hx => absurd hx (List.not_mem_nil x)) e he hg
  · intro provider toolEnv budget st ev m hp hr hc
    rw [chatGo]
    dsimp only [passState_iteration_count, passState_booking]
    rw [hp]
    dsimp only
    rw [if_pos hr, if_neg (by simp [hc])]

set_option maxRecDepth 1000000 in
/-- Witness for C1: a guard-path invocation observed in a run from a
complete state indeed carries `wasComplete = true`, and the incomplete-
commit pass of a concrete run reduces to the continuation carrying the
synthesized missing-fields message. -/
theorem C1_witness :
    (⟨true, true⟩ : BookEvent) ∈ (chat proceedProvider okToolEnv
        { initial_agent_state pJohn with booking := bComplete } "go").events.bookCalls
      ∧ (⟨true, true⟩ : BookEvent).wasComplete = true
      ∧ chatGo proceedProvider okToolEnv 1 (initial_agent_state pJohn) {}
          = chatGo proceedProvider okToolEnv 0
              { passState (initial_agent_state pJohn) with
                 messages := ((passState (initial_agent_state pJohn)).messages
                     ++ [⟨"assistant", "Please proceed with booking now."⟩])
                   ++ [⟨"user", "Cannot book yet. Still need: "
                         ++ String.intercalate ", "
                             (missing_fields (initial_agent_state pJohn).booking)⟩] }
              (passEvents (initial_agent_state pJohn) {}) :=
  ⟨by decide,
   C1_commit_guard.1 proceedProvider okToolEnv
     { initial_agent_state pJohn with booking := bComplete } "go" ⟨true, true⟩
     (by decide) rfl,
   C1_commit_guard.2 proceedProvider okToolEnv 0 (initial_agent_state pJohn) {}
     "Please proceed with booking now." rfl (by decide) (by decide)⟩

/-! ## Lemmas about the structured-call extractor -/

theorem listStartsWith_append (p r : List Char) : listStartsWith (p ++ r) p = true := by
  induction p with
  | nil => cases r with | nil => rfl | cons x xs => rfl
  | cons c cs ih => simp [listStartsWith, ih]

theorem splitFirst_leading (pat r : List Char) :
    splitFirst (pat ++ r) pat = some ([], r) := by
  cases hp : pat ++ r with
  | nil =>
    have := List.append_eq_nil.mp hp
    rw [splitFirst]
    simp [this.1, this.2, listStartsWith]
  | cons c cs =>
    rw [splitFirst, ← hp, listStartsWith_append]
    simp [List.drop_left]

theorem splitFirst_mid (c : Char) (ps r : List Char) :
    ∀ pre : List Char, c ∉ pre →
      splitFirst (pre ++ ((c :: ps) ++ r)) (c :: ps) = some (pre, r) := by
  intro pre
  induction pre with
  | nil =>
    intro _
    simpa using splitFirst_leading (c :: ps) r
  | cons x xs ih =>
    intro hmem
    have hx : x ≠ c := fun h => hmem (by simp [h])
    have hxs : c ∉ xs := fun h => hmem (by simp [h])
    rw [List.cons_append, splitFirst]
    have hsw : listStartsWith (x :: (xs ++ ((c :: ps) ++ r))) (c :: ps) = false := by
      simp [listStartsWith, hx]
    rw [hsw]
    simp only [Bool.false_eq_true, if_false]
    rw [ih hxs]

theorem scanToolCalls_nil (fuel : Nat) : scanToolCalls fuel [] = [] := by
  cases fuel with
  | zero => rfl
  | succ f => rfl

theorem findall_single (content : List Char) (h : '<' ∉ content) :
    findallToolCalls (openTagChars ++ (content ++ closeTagChars)) = [content] := by
  unfold findallToolCalls
  have hlen : (openTagChars ++ (content ++ closeTagChars)).length
      = (content.length + 22) + 1 := by
    simp [openTagChars, closeTagChars]
  rw [hlen]
  rw [scanToolCalls]
  rw [splitFirst_leading]
  have hclose : closeTagChars = '<' :: "/tool_call>".data := rfl
  have hmid : splitFirst (content ++ closeTagChars) closeTagChars = some (content, []) := by
    rw [hclose]
    have := splitFirst_mid '<' "/tool_call>".data [] content h
    simpa using this
  simp [hmid, scanToolCalls_nil]

theorem dropWhile_head_false {p : Char → Bool} {s : List Char}
    (h : ∀ c, s.head? = some c → p c = false) : s.dropWhile p = s := by
  cases s with
  | nil => rfl
  | cons x xs => rw [List.dropWhile_cons, h x rfl]; simp

theorem pyStrip_no_space_ends {s : List Char}
    (h1 : ∀ c, s.head? = some c → isPySpace c = false)
    (h2 : ∀ c, s.getLast? = some c → isPySpace c = false) : pyStrip s = s := by
  unfold pyStrip
  rw [dropWhile_head_false h1]
  rw [dropWhile_head_false (fun c hc => h2 c (by rwa [List.head?_reverse] at hc))]
  exact List.reverse_reverse s

theorem takeWhile_append_stop {p : Char → Bool} (l : List Char)
    (hall : ∀ c ∈ l, p c = true) (x : Char) (hx : p x = false) (r : List Char) :
    (l ++ x :: r).takeWhile p = l ∧ (l ++ x :: r).dropWhile p = x :: r := by
  induction l with
  | nil =>
    constructor
    · rw [List.nil_append, List.takeWhile_cons, hx]; simp
    · rw [List.nil_append, List.dropWhile_cons, hx]; simp
  | cons y ys ih =>
    have hy : p y = true := hall y (by simp)
    have hys : ∀ c ∈ ys, p c = true := fun c hc => hall c (by simp [hc])
    obtain ⟨iht, ihd⟩ := ih hys
    constructor
    · rw [List.cons_append, List.takeWhile_cons, hy]
      simp [iht]
    · rw [List.cons_append, List.dropWhile_cons, hy]
      simp [ihd]

theorem takeToParen_append (args : List Char) (h1 : ')' ∉ args) (h2 : '\n' ∉ args)
    (r : List Char) : takeToParen (args ++ ')' :: r) = some args := by
  induction args with
  | nil => rfl
  | cons x xs ih =>
    have hx1 : x ≠ ')' := fun h => h1 (by simp [h])
    have hx2 : x ≠ '\n' := fun h => h2 (by simp [h])
    have hxs1 : ')' ∉ xs := fun h => h1 (by simp [h])
    have hxs2 : '\n' ∉ xs := fun h => h2 (by simp [h])
    rw [List.cons_append, takeToParen]
    simp [hx1, hx2, ih hxs1 hxs2]

theorem funcMatch_structured (name args : List Char)
    (hn1 : name ≠ []) (hn2 : ∀ c ∈ name, isWordChar c = true)
    (ha1 : ')' ∉ args) (ha2 : '\n' ∉ args) :
    funcMatch (name ++ '(' :: (args ++ [')'])) = some (name, args) := by
  unfold funcMatch
  have hparen : isWordChar '(' = false := by decide
  obtain ⟨ht, hd⟩ := takeWhile_append_stop name hn2 '(' hparen (args ++ [')'])
  rw [ht, hd]
  have : takeToParen (args ++ [')']) = some args := by
    have := takeToParen_append args ha1 ha2 []
    simpa using this
  simp [hn1, this]

theorem isWordChar_not_space {c : Char} (h : isWordChar c = true) : isPySpace c = false := by
  by_contra hs
  have hs2 : isPySpace c = true := by simpa using hs
  simp only [isPySpace, Bool.or_eq_true, decide_eq_true_eq] at hs2
  rcases hs2 with ((((h1 | h1) | h1) | h1) | h1) | h1 <;> subst h1 <;> revert h <;> decide

theorem isWordChar_ne {c : Char} (h : isWordChar c = true) :
    c ≠ '<' ∧ c ≠ '(' ∧ c ≠ ')' ∧ c ≠ '=' ∧ c ≠ ',' ∧ c ≠ '\n' := by
  refine ⟨?_, ?_, ?_, ?_, ?_, ?_⟩ <;> (intro he; subst he; revert h; decide)

theorem argScanGo_nil (fuel : Nat) : argScanGo fuel [] = [] := by
  cases fuel with
  | zero => rfl
  | succ f => rfl

theorem takeWhile_all {p : Char → Bool} (l : List Char) (h : ∀ c ∈ l, p c = true) :
    l.takeWhile p = l := by
  rw [List.takeWhile_eq_self_iff]
  exact h

theorem argScan_single (key tok : List Char)
    (hk1 : key ≠ []) (hk2 : ∀ c ∈ key, isWordChar c = true)
    (ht1 : tok ≠ []) (ht2 : ',' ∉ tok) :
    argScan (key ++ '=' :: tok) = [(key, tok)] := by
  obtain ⟨k0, ks, rfl⟩ : ∃ k0 ks, key = k0 :: ks := by
    cases key with
    | nil => exact absurd rfl hk1
    | cons a b => exact ⟨a, b, rfl⟩
  have hk0 : isWordChar k0 = true := hk2 k0 (by simp)
  obtain ⟨ht, hd⟩ := takeWhile_append_stop (k0 :: ks) hk2 '=' (by decide) tok
  have hv : tok.takeWhile (fun d => d ≠ ',') = tok :=
    takeWhile_all tok (fun c hc => by
      simp only [decide_eq_true_eq]
      exact fun h => ht2 (h ▸ hc))
  unfold argScan
  simp only [List.cons_append, List.length_cons]
  rw [argScanGo]
  rw [hk0]
  simp only [if_true]
  simp only [← List.cons_append] at hd ht ⊢
  rw [hd]
  simp only [ht, hv]
  rw [if_neg (by simpa using ht1)]
  rw [List.drop_length, argScanGo_nil]

theorem mem_dropWhile_of_not {p : Char → Bool} {c : Char} :
    ∀ {l : List Char}, c ∈ l → p c = false → c ∈ l.dropWhile p
  | [], h, _ => absurd h (List.not_mem_nil c)
  | x :: xs, h, hc => by
    rw [List.dropWhile_cons]
    by_cases hx : p x = true
    · rw [hx]
      simp only [if_true]
      rcases List.mem_cons.mp h with rfl | h2
      · rw [hx] at hc; cases hc
      · exact mem_dropWhile_of_not h2 hc
    · rw [Bool.not_eq_true] at hx
      rw [hx]
      simpa using h

theorem pyStrip_ne_nil {s : List Char} {c : Char} (hc : c ∈ s)
    (hcs : isPySpace c = false) : pyStrip s ≠ [] := by
  intro h
  unfold pyStrip at h
  rw [List.reverse_eq_nil_iff, List.dropWhile_eq_nil_iff] at h
  have h1 : c ∈ s.dropWhile isPySpace := mem_dropWhile_of_not hc hcs
  have h2 : c ∈ (s.dropWhile isPySpace).reverse := List.mem_reverse.mpr h1
  have := h c h2
  rw [hcs] at this
  cases this

theorem parseValue_quoted (inner : List Char) :
    parseValue ('"' :: (inner ++ ['"']))
      = (match pyInt? inner with
         | some n => PyVal.int n
         | none => PyVal.str (String.mk inner)) := by
  have hlast : ('"' :: (inner ++ ['"'])).getLast? = some '"' := by
    rw [show ('"' :: (inner ++ ['"'])) = ('"' :: inner) ++ ['"'] from rfl]
    exact List.getLast?_concat _
  have hstrip : pyStrip ('"' :: (inner ++ ['"'])) = '"' :: (inner ++ ['"']) := by
    apply pyStrip_no_space_ends
    · intro c hc
      simp only [List.head?_cons, Option.some.injEq] at hc
      subst hc
      decide
    · intro c hc
      rw [hlast] at hc
      simp only [Option.some.injEq] at hc
      subst hc
      decide
  have hq : stripQuotes ('"' :: (inner ++ ['"'])) = inner := by
    unfold stripQuotes
    rw [if_pos]
    · show ((('"' :: (inner ++ ['"'])).drop 1).dropLast) = inner
      rw [show ('"' :: (inner ++ ['"'])).drop 1 = inner ++ ['"'] from rfl]
      exact List.dropLast_concat
    · simp [hlast]
  unfold parseValue
  dsimp only
  rw [hstrip, hq]

theorem extract_no_envelope (s : String)
    (h : splitFirst s.data openTagChars = none) : extract_tool_calls s = [] := by
  unfold extract_tool_calls findallToolCalls
  cases hf : s.data.length with
  | zero => rfl
  | succ n =>
    rw [scanToolCalls, h]
    rfl

theorem tag_data_split (content : String) :
    ("<tool_call>" ++ content ++ "</tool_call>").data
      = openTagChars ++ (content.data ++ closeTagChars) := by
  simp only [String.data_append, List.append_assoc]
  rfl

theorem extract_malformed (content : String) (hlt : '<' ∉ content.data)
    (hfm : funcMatch (pyStrip content.data) = none) :
    extract_tool_calls ("<tool_call>" ++ content ++ "</tool_call>") = [] := by
  unfold extract_tool_calls
  rw [tag_data_split, findall_single content.data hlt]
  simp [hfm]

theorem extract_single (name key tok : List Char)
    (hn1 : name ≠ []) (hn2 : ∀ c ∈ name, isWordChar c = true)
    (hk1 : key ≠ []) (hk2 : ∀ c ∈ key, isWordChar c = true)
    (ht1 : tok ≠ []) (ht2 : ',' ∉ tok) (ht3 : ')' ∉ tok) (ht4 : '\n' ∉ tok)
    (ht5 : '<' ∉ tok) :
    extract_tool_calls ("<tool_call>"
        ++ String.mk (name ++ '(' :: ((key ++ '=' :: tok) ++ [')']))
        ++ "</tool_call>")
      = [⟨String.mk name, [(String.mk key, parseValue tok)]⟩] := by
  obtain ⟨n0, ns, rfl⟩ : ∃ n0 ns, name = n0 :: ns := by
    cases name with
    | nil => exact absurd rfl hn1
    | cons a b => exact ⟨a, b, rfl⟩
  obtain ⟨k0, ks, rfl⟩ : ∃ k0 ks, key = k0 :: ks := by
    cases key with
    | nil => exact absurd rfl hk1
    | cons a b => exact ⟨a, b, rfl⟩
  have hlt : '<' ∉ ((n0 :: ns) ++ '(' :: (((k0 :: ks) ++ '=' :: tok) ++ [')'])) := by
    intro hmem
    rcases List.mem_append.mp hmem with h | h
    · exact (isWordChar_ne (hn2 '<' h)).1 rfl
    · rcases List.mem_cons.mp h with h | h
      · exact absurd h (by decide)
      · rcases List.mem_append.mp h with h | h
        · rcases List.mem_append.mp h with h | h
          · exact (isWordChar_ne (hk2 '<' h)).1 rfl
          · rcases List.mem_cons.mp h with h | h
            · exact absurd h (by decide)
            · exact ht5 h
        · rcases List.mem_cons.mp h with h | h
          · exact absurd h (by decide)
          · exact absurd h (List.not_mem_nil '<')
  have hstrip : pyStrip ((n0 :: ns) ++ '(' :: (((k0 :: ks) ++ '=' :: tok) ++ [')']))
      = (n0 :: ns) ++ '(' :: (((k0 :: ks) ++ '=' :: tok) ++ [')']) := by
    apply pyStrip_no_space_ends
    · intro c hc
      have h0 : ((n0 :: ns) ++ '(' :: (((k0 :: ks) ++ '=' :: tok) ++ [')'])).head?
          = some n0 := rfl
      rw [h0] at hc
      have hcn : c = n0 := by simpa [eq_comm] using hc
      subst hcn
      exact isWordChar_not_space (hn2 c (by simp))
    · intro c hc
      have hC2 : ((n0 :: ns) ++ '(' :: (((k0 :: ks) ++ '=' :: tok) ++ [')']))
          = ((n0 :: ns) ++ '(' :: ((k0 :: ks) ++ '=' :: tok)) ++ [')'] := by
        simp
      rw [hC2, List.getLast?_concat] at hc
      have hcp : c = ')' := by simpa [eq_comm] using hc
      subst hcp
      decide
  have hfm : funcMatch (pyStrip ((n0 :: ns) ++ '(' :: (((k0 :: ks) ++ '=' :: tok) ++ [')'])))
      = some (n0 :: ns, (k0 :: ks) ++ '=' :: tok) := by
    rw [hstrip]
    apply funcMatch_structured _ _ hn1 hn2
    · intro hmem
      rcases List.mem_append.mp hmem with h | h
      · exact (isWordChar_ne (hk2 ')' h)).2.2.1 rfl
      · rcases List.mem_cons.mp h with h | h
        · exact absurd h (by decide)
        · exact ht3 h
    · intro hmem
      rcases List.mem_append.mp hmem with h | h
      · exact (isWordChar_ne (hk2 '\n' h)).2.2.2.2.2 rfl
      · rcases List.mem_cons.mp h with h | h
        · exact absurd h (by decide)
        · exact ht4 h
  have hne : pyStrip ((k0 :: ks) ++ '=' :: tok) ≠ [] :=
    pyStrip_ne_nil (c := k0) (by simp) (isWordChar_not_space (hk2 k0 (by simp)))
  unfold extract_tool_calls
  rw [show ("<tool_call>"
        ++ String.mk ((n0 :: ns) ++ '(' :: (((k0 :: ks) ++ '=' :: tok) ++ [')']))
        ++ "</tool_call>").data
      = openTagChars ++ (((n0 :: ns) ++ '(' :: (((k0 :: ks) ++ '=' :: tok) ++ [')']))
          ++ closeTagChars) from tag_data_split _]
  rw [findall_single _ hlt]
  rw [List.filterMap_cons]
  dsimp only
  rw [hfm]
  dsimp only
  rw [if_pos hne]
  rw [argScan_single _ _ hk1 hk2 ht1 ht2]
  simp [dictInsert]



theorem splitFirst_none_of_not_mem {c : Char} {s : List Char} (h : c ∉ s)
    (ps : List Char) : splitFirst s (c :: ps) = none := by
  induction s with
  | nil => rfl
  | cons x xs ih =>
    have hx : x ≠ c := fun he => h (by simp [he])
    have hxs : c ∉ xs := fun he => h (by simp [he])
    rw [splitFirst]
    have hsw : listStartsWith (x :: xs) (c :: ps) = false := by
      simp [listStartsWith, hx]
    rw [hsw]
    simp only [Bool.false_eq_true, if_false]
    rw [ih hxs]

theorem scanToolCalls_envMsg :
    ∀ (l : List EnvPiece) (trail : List Char) (fuel : Nat),
      (∀ p ∈ l, '<' ∉ EnvPiece.filler p ∧ '<' ∉ EnvPiece.content p) →
      '<' ∉ trail → (envMsg l trail).length ≤ fuel →
      scanToolCalls fuel (envMsg l trail) = l.map EnvPiece.content := by
  intro l
  induction l with
  | nil =>
    intro trail fuel _ htrail hlen
    cases fuel with
    | zero =>
      have h0 : trail = [] := List.length_eq_zero.mp (Nat.le_zero.mp hlen)
      subst h0
      rfl
    | succ f =>
      show scanToolCalls (f + 1) trail = []
      rw [scanToolCalls]
      rw [show openTagChars = '<' :: "tool_call>".data from rfl]
      rw [splitFirst_none_of_not_mem htrail]
  | cons p rest ih =>
    intro trail fuel hl htrail hlen
    obtain ⟨hf, hc⟩ := hl p (by simp)
    have hrest : ∀ q ∈ rest, '<' ∉ EnvPiece.filler q ∧ '<' ∉ EnvPiece.content q :=
      fun q hq => hl q (by simp [hq])
    have hlen3 : (envMsg rest trail).length + 23 ≤ (envMsg (p :: rest) trail).length := by
      rw [show envMsg (p :: rest) trail
          = EnvPiece.filler p ++ (openTagChars ++ (EnvPiece.content p
              ++ (closeTagChars ++ envMsg rest trail))) from rfl]
      simp only [List.length_append]
      rw [show openTagChars.length = 11 from rfl, show closeTagChars.length = 12 from rfl]
      omega
    obtain ⟨g, rfl⟩ : ∃ g, fuel = g + 1 := ⟨fuel - 1, by omega⟩
    rw [show envMsg (p :: rest) trail
        = EnvPiece.filler p ++ (openTagChars ++ (EnvPiece.content p
            ++ (closeTagChars ++ envMsg rest trail))) from rfl]
    have hopen : splitFirst (EnvPiece.filler p ++ (openTagChars ++ (EnvPiece.content p
          ++ (closeTagChars ++ envMsg rest trail)))) openTagChars
        = some (EnvPiece.filler p,
            EnvPiece.content p ++ (closeTagChars ++ envMsg rest trail)) := by
      rw [show openTagChars = '<' :: "tool_call>".data from rfl]
      exact splitFirst_mid '<' "tool_call>".data _ _ hf
    have hclose : splitFirst (EnvPiece.content p ++ (closeTagChars ++ envMsg rest trail))
          closeTagChars
        = some (EnvPiece.content p, envMsg rest trail) := by
      rw [show closeTagChars = '<' :: "/tool_call>".data from rfl]
      exact splitFirst_mid '<' "/tool_call>".data _ _ hc
    rw [scanToolCalls, hopen]
    dsimp only
    rw [hclose]
    dsimp only
    rw [List.map_cons]
    rw [ih trail g hrest htrail (by omega)]

theorem findall_envMsg (l : List EnvPiece) (trail : List Char)
    (hl : ∀ p ∈ l, '<' ∉ EnvPiece.filler p ∧ '<' ∉ EnvPiece.content p)
    (htrail : '<' ∉ trail) :
    findallToolCalls (envMsg l trail) = l.map EnvPiece.content :=
  scanToolCalls_envMsg l trail (envMsg l trail).length hl htrail (Nat.le_refl _)

theorem notMem_joinPairs (x : Char) (hx1 : x ≠ '=') (hx2 : x ≠ ',') (hx3 : x ≠ ' ') :
    ∀ ps : List (List Char × List Char),
      (∀ kv ∈ ps, x ∉ kv.1 ∧ x ∉ kv.2) → x ∉ joinPairs ps := by
  intro ps
  induction ps with
  | nil =>
    intro _
    simp [joinPairs]
  | cons kv rest ih =>
    intro h
    obtain ⟨k, v⟩ := kv
    obtain ⟨hk, hv⟩ := h (k, v) (by simp)
    cases rest with
    | nil =>
      intro hmem
      rw [show joinPairs [(k, v)] = k ++ '=' :: v from rfl] at hmem
      rcases List.mem_append.mp hmem with h2 | h2
      · exact hk h2
      · rcases List.mem_cons.mp h2 with h2 | h2
        · exact hx1 h2
        · exact hv h2
    | cons kv2 rest2 =>
      intro hmem
      rw [show joinPairs ((k, v) :: kv2 :: rest2)
          = (k ++ '=' :: v) ++ ',' :: ' ' :: joinPairs (kv2 :: rest2) from rfl] at hmem
      rcases List.mem_append.mp hmem with h2 | h2
      · rcases List.mem_append.mp h2 with h3 | h3
        · exact hk h3
        · rcases List.mem_cons.mp h3 with h3 | h3
          · exact hx1 h3
          · exact hv h3
      · rcases List.mem_cons.mp h2 with h3 | h3
        · exact hx2 h3
        · rcases List.mem_cons.mp h3 with h3 | h3
          · exact hx3 h3
          · exact ih (fun q hq => h q (by simp [hq])) h3

theorem argScanGo_joinPairs :
    ∀ (ps : List (List Char × List Char)) (fuel : Nat),
      (∀ kv ∈ ps, pairOk kv) → (joinPairs ps).length ≤ fuel →
      argScanGo fuel (joinPairs ps) = ps := by
  intro ps
  induction ps with
  | nil =>
    intro fuel _ _
    exact argScanGo_nil fuel
  | cons kv rest ih =>
    intro fuel hok hlen
    obtain ⟨k, v⟩ := kv
    obtain ⟨hk1, hk2, hv1, hv2, -, -, -⟩ := hok (k, v) (by simp)
    obtain ⟨k0, ks, rfl⟩ : ∃ k0 ks, k = k0 :: ks := by
      cases k with
      | nil => exact absurd rfl hk1
      | cons a b => exact ⟨a, b, rfl⟩
    have hk0 : isWordChar k0 = true := hk2 k0 (by simp)
    cases rest with
    | nil =>
      obtain ⟨ht, hd⟩ := takeWhile_append_stop (k0 :: ks) hk2 '=' (by decide) v
      have hv : v.takeWhile (fun d => d ≠ ',') = v :=
        takeWhile_all v (fun c hc => by
          simp only [decide_eq_true_eq]
          exact fun h => hv2 (h ▸ hc))
      obtain ⟨g, rfl⟩ : ∃ g, fuel = g + 1 := by
        refine ⟨fuel - 1, ?_⟩
        have h1 : 1 ≤ (joinPairs [(k0 :: ks, v)]).length := by
          rw [show joinPairs [(k0 :: ks, v)] = (k0 :: ks) ++ '=' :: v from rfl]
          simp
        omega
      rw [show joinPairs [(k0 :: ks, v)] = (k0 :: ks) ++ '=' :: v from rfl]
      simp only [List.cons_append]
      rw [argScanGo]
      rw [hk0]
      simp only [if_true]
      simp only [List.cons_append] at hd ht
      rw [hd]
      simp only [ht, hv]
      rw [if_neg (by simpa using hv1)]
      rw [List.drop_length, argScanGo_nil]
    | cons kv2 rest2 =>
      have hrest : ∀ q ∈ kv2 :: rest2, pairOk q := fun q hq => hok q (by simp [hq])
      obtain ⟨ht, hd⟩ := takeWhile_append_stop (k0 :: ks) hk2 '=' (by decide)
          (v ++ ',' :: ' ' :: joinPairs (kv2 :: rest2))
      have hvw : (v ++ ',' :: ' ' :: joinPairs (kv2 :: rest2)).takeWhile (fun d => d ≠ ',')
          = v :=
        (takeWhile_append_stop v
          (fun c hc => by
            simp only [decide_eq_true_eq]
            exact fun h => hv2 (h ▸ hc))
          ',' (by simp) (' ' :: joinPairs (kv2 :: rest2))).1
      have hdrop : (v ++ ',' :: ' ' :: joinPairs (kv2 :: rest2)).drop v.length
          = ',' :: ' ' :: joinPairs (kv2 :: rest2) := List.drop_left _ _
      have hlen2 : (joinPairs (kv2 :: rest2)).length + 5
          ≤ (joinPairs ((k0 :: ks, v) :: kv2 :: rest2)).length := by
        rw [show joinPairs ((k0 :: ks, v) :: kv2 :: rest2)
            = ((k0 :: ks) ++ '=' :: v) ++ ',' :: ' ' :: joinPairs (kv2 :: rest2) from rfl]
        simp only [List.length_append, List.length_cons]
        have hvl : 1 ≤ v.length := by
          cases v with
          | nil => exact absurd rfl hv1
          | cons _ _ => simp
        omega
      obtain ⟨g, rfl⟩ : ∃ g, fuel = g + 1 := ⟨fuel - 1, by omega⟩
      obtain ⟨g1, rfl⟩ : ∃ g1, g = g1 + 1 := ⟨g - 1, by omega⟩
      obtain ⟨g2, rfl⟩ : ∃ g2, g1 = g2 + 1 := ⟨g1 - 1, by omega⟩
      rw [show joinPairs ((k0 :: ks, v) :: kv2 :: rest2)
          = ((k0 :: ks) ++ '=' :: v) ++ ',' :: ' ' :: joinPairs (kv2 :: rest2) from rfl]
      simp only [List.cons_append, List.append_assoc]
      rw [argScanGo]
      rw [hk0]
      simp only [if_true]
      simp only [List.cons_append, List.append_assoc] at hd ht
      rw [hd]
      simp only [ht, hvw]
      rw [if_neg (by simpa using hv1)]
      rw [hdrop]
      rw [argScanGo]
      rw [show isWordChar ',' = false from by decide]
      simp only [Bool.false_eq_true, if_false]
      rw [argScanGo]
      rw [show isWordChar ' ' = false from by decide]
      simp only [Bool.false_eq_true, if_false]
      rw [ih g2 hrest (by omega)]

theorem foldl_dictInsert_nodup :
    ∀ (ps : List (List Char × List Char)) (acc : List (String × PyVal)),
      (∀ kv ∈ ps, ∀ e ∈ acc, e.1 ≠ String.mk kv.1) →
      (ps.map Prod.fst).Nodup →
      ps.foldl (fun d kv => dictInsert d (String.mk kv.1) (parseValue kv.2)) acc
        = acc ++ ps.map (fun kv => (String.mk kv.1, parseValue kv.2)) := by
  intro ps
  induction ps with
  | nil =>
    intro acc _ _
    simp
  | cons kv rest ih =>
    intro acc hfresh hnodup
    have hnd : (kv.1 :: rest.map Prod.fst).Nodup := by simpa using hnodup
    have hkey : kv.1 ∉ rest.map Prod.fst := (List.nodup_cons.mp hnd).1
    have hnodup2 : (rest.map Prod.fst).Nodup := (List.nodup_cons.mp hnd).2
    simp only [List.foldl_cons, List.map_cons]
    have hins : dictInsert acc (String.mk kv.1) (parseValue kv.2)
        = acc ++ [(String.mk kv.1, parseValue kv.2)] := by
      unfold dictInsert
      rw [if_neg]
      intro hany
      rw [List.any_eq_true] at hany
      obtain ⟨e, he, heq⟩ := hany
      exact hfresh kv (by simp) e he (by simpa using heq)
    rw [hins]
    rw [ih (acc ++ [(String.mk kv.1, parseValue kv.2)]) ?fresh hnodup2]
    · simp
    case fresh =>
      intro kv2 hkv2 e he
      rcases List.mem_append.mp he with he2 | he2
      · exact hfresh kv2 (by simp [hkv2]) e he2
      · have he3 : e = (String.mk kv.1, parseValue kv.2) := by simpa using he2
        subst he3
        intro heq
        have hk : kv.1 = kv2.1 := congrArg String.data heq
        exact hkey (hk ▸ List.mem_map.mpr ⟨kv2, hkv2, rfl⟩)

theorem joinPairs_no_paren (pairs : List (List Char × List Char))
    (hpairs : ∀ kv ∈ pairs, pairOk kv) : ')' ∉ joinPairs pairs :=
  notMem_joinPairs ')' (by decide) (by decide) (by decide) pairs
    (fun kv hkv => ⟨fun hk => (isWordChar_ne ((hpairs kv hkv).2.1 ')' hk)).2.2.1 rfl,
      (hpairs kv hkv).2.2.2.2.1⟩)

theorem joinPairs_no_newline (pairs : List (List Char × List Char))
    (hpairs : ∀ kv ∈ pairs, pairOk kv) : '\n' ∉ joinPairs pairs :=
  notMem_joinPairs '\n' (by decide) (by decide) (by decide) pairs
    (fun kv hkv => ⟨fun hk => (isWordChar_ne ((hpairs kv hkv).2.1 '\n' hk)).2.2.2.2.2 rfl,
      (hpairs kv hkv).2.2.2.2.2.1⟩)

theorem joinPairs_no_lt (pairs : List (List Char × List Char))
    (hpairs : ∀ kv ∈ pairs, pairOk kv) : '<' ∉ joinPairs pairs :=
  notMem_joinPairs '<' (by decide) (by decide) (by decide) pairs
    (fun kv hkv => ⟨fun hk => (isWordChar_ne ((hpairs kv hkv).2.1 '<' hk)).1 rfl,
      (hpairs kv hkv).2.2.2.2.2.2⟩)

theorem good_content_no_lt (name : List Char) (pairs : List (List Char × List Char))
    (hn2 : ∀ c ∈ name, isWordChar c = true) (hpairs : ∀ kv ∈ pairs, pairOk kv) :
    '<' ∉ (name ++ '(' :: (joinPairs pairs ++ [')'])) := by
  intro hmem
  rcases List.mem_append.mp hmem with h | h
  · exact (isWordChar_ne (hn2 '<' h)).1 rfl
  · rcases List.mem_cons.mp h with h2 | h2
    · exact absurd h2 (by decide)
    · rcases List.mem_append.mp h2 with h3 | h3
      · exact joinPairs_no_lt pairs hpairs h3
      · rcases List.mem_cons.mp h3 with h4 | h4
        · exact absurd h4 (by decide)
        · exact absurd h4 (List.not_mem_nil '<')

theorem funcMatch_good (name : List Char) (pairs : List (List Char × List Char))
    (hn1 : name ≠ []) (hn2 : ∀ c ∈ name, isWordChar c = true)
    (hpairs : ∀ kv ∈ pairs, pairOk kv) :
    funcMatch (pyStrip (name ++ '(' :: (joinPairs pairs ++ [')'])))
      = some (name, joinPairs pairs) := by
  obtain ⟨n0, ns, rfl⟩ : ∃ n0 ns, name = n0 :: ns := by
    cases name with
    | nil => exact absurd rfl hn1
    | cons a b => exact ⟨a, b, rfl⟩
  have hstrip : pyStrip ((n0 :: ns) ++ '(' :: (joinPairs pairs ++ [')']))
      = (n0 :: ns) ++ '(' :: (joinPairs pairs ++ [')']) := by
    apply pyStrip_no_space_ends
    · intro c hc
      have h0 : ((n0 :: ns) ++ '(' :: (joinPairs pairs ++ [')'])).head? = some n0 := rfl
      rw [h0] at hc
      have hcn : c = n0 := by simpa [eq_comm] using hc
      subst hcn
      exact isWordChar_not_space (hn2 c (by simp))
    · intro c hc
      have hsh : ((n0 :: ns) ++ '(' :: (joinPairs pairs ++ [')']))
          = ((n0 :: ns) ++ '(' :: joinPairs pairs) ++ [')'] := by
        simp
      rw [hsh, List.getLast?_concat] at hc
      have hcp : c = ')' := by simpa [eq_comm] using hc
      subst hcp
      decide
  rw [hstrip]
  exact funcMatch_structured _ _ hn1 hn2 (joinPairs_no_paren pairs hpairs)
    (joinPairs_no_newline pairs hpairs)

theorem parseValue_quoted_any (q : Char) (inner : List Char)
    (hq : q = '"' ∨ q = squote) :
    parseValue (q :: (inner ++ [q]))
      = (match pyInt? inner with
         | some n => PyVal.int n
         | none => PyVal.str (String.mk inner)) := by
  have hqs : isPySpace q = false := by rcases hq with rfl | rfl <;> decide
  have hlast : (q :: (inner ++ [q])).getLast? = some q := by
    rw [show (q :: (inner ++ [q])) = (q :: inner) ++ [q] from rfl]
    exact List.getLast?_concat _
  have hstrip : pyStrip (q :: (inner ++ [q])) = q :: (inner ++ [q]) := by
    apply pyStrip_no_space_ends
    · intro c hc
      simp only [List.head?_cons, Option.some.injEq] at hc
      exact hc ▸ hqs
    · intro c hc
      rw [hlast] at hc
      simp only [Option.some.injEq] at hc
      exact hc ▸ hqs
  have hqe : stripQuotes (q :: (inner ++ [q])) = inner := by
    unfold stripQuotes
    rw [if_pos]
    · show ((q :: (inner ++ [q])).drop 1).dropLast = inner
      rw [show (q :: (inner ++ [q])).drop 1 = inner ++ [q] from rfl]
      exact List.dropLast_concat
    · rw [show (q :: (inner ++ [q])).head? = some q from rfl, hlast]
      rcases hq with rfl | rfl <;> decide
  unfold parseValue
  dsimp only
  rw [hstrip, hqe]

theorem extract_envelopes (l : List EnvPiece) (trail : List Char)
    (hl : ∀ p ∈ l, pieceOk p) (htrail : '<' ∉ trail) :
    extract_tool_calls (String.mk (envMsg l trail))
      = (l.map EnvPiece.calls).flatten := by
  have hcontent : ∀ p ∈ l, '<' ∉ EnvPiece.filler p ∧ '<' ∉ EnvPiece.content p := by
    intro p hp
    cases p with
    | good filler name pairs =>
      obtain ⟨h1, h2, h3, h4, h5⟩ := hl (.good filler name pairs) hp
      exact ⟨h1, good_content_no_lt name pairs h3 h4⟩
    | bad filler content =>
      obtain ⟨h1, h2, h3⟩ := hl (.bad filler content) hp
      exact ⟨h1, h2⟩
  unfold extract_tool_calls
  rw [show (String.mk (envMsg l trail)).data = envMsg l trail from rfl]
  rw [findall_envMsg l trail hcontent htrail]
  clear hcontent htrail
  revert hl
  induction l with
  | nil =>
    intro _
    rfl
  | cons p rest ih =>
    intro hl
    have hrest : ∀ q ∈ rest, pieceOk q := fun q hq => hl q (by simp [hq])
    rw [List.map_cons, List.filterMap_cons, List.map_cons]
    cases p with
    | bad filler content =>
      obtain ⟨-, -, hfm⟩ := hl (.bad filler content) (by simp)
      dsimp only [EnvPiece.content, EnvPiece.calls]
      rw [hfm]
      dsimp only
      rw [List.flatten_cons, List.nil_append]
      exact ih hrest
    | good filler name pairs =>
      obtain ⟨-, hn1, hn2, hpairs, hnodup⟩ := hl (.good filler name pairs) (by simp)
      dsimp only [EnvPiece.content, EnvPiece.calls]
      rw [funcMatch_good name pairs hn1 hn2 hpairs]
      dsimp only
      rw [List.flatten_cons, List.singleton_append]
      cases pairs with
      | nil =>
        rw [if_neg (by decide)]
        rw [List.map_nil]
        rw [ih hrest]
      | cons kv prest =>
        obtain ⟨k, v⟩ := kv
        obtain ⟨hk1, hk2, -⟩ := hpairs (k, v) (by simp)
        obtain ⟨k0, ks, rfl⟩ : ∃ k0 ks, k = k0 :: ks := by
          cases k with
          | nil => exact absurd rfl hk1
          | cons a b => exact ⟨a, b, rfl⟩
        have hmem : k0 ∈ joinPairs ((k0 :: ks, v) :: prest) := by
          cases prest with
          | nil =>
            rw [show joinPairs [(k0 :: ks, v)] = (k0 :: ks) ++ '=' :: v from rfl]
            exact List.mem_append.mpr (Or.inl (by simp))
          | cons kv2 prest2 =>
            rw [show joinPairs ((k0 :: ks, v) :: kv2 :: prest2)
                = ((k0 :: ks) ++ '=' :: v) ++ ',' :: ' ' :: joinPairs (kv2 :: prest2)
                from rfl]
            exact List.mem_append.mpr (Or.inl (List.mem_append.mpr (Or.inl (by simp))))
        have hne : pyStrip (joinPairs ((k0 :: ks, v) :: prest)) ≠ [] :=
          pyStrip_ne_nil hmem (isWordChar_not_space (hk2 k0 (by simp)))
        rw [if_pos hne]
        rw [show argScan (joinPairs ((k0 :: ks, v) :: prest))
            = argScanGo (joinPairs ((k0 :: ks, v) :: prest)).length
                (joinPairs ((k0 :: ks, v) :: prest)) from rfl]
        rw [argScanGo_joinPairs ((k0 :: ks, v) :: prest) _ hpairs (Nat.le_refl _)]
        rw [foldl_dictInsert_nodup ((k0 :: ks, v) :: prest) []
            (fun kv2 _ e he => absurd he (List.not_mem_nil e)) hnodup]
        rw [List.nil_append]
        rw [ih hrest]

set_option maxRecDepth 400000 in
/-- C9 counterexample: a double-quoted value whose inner text parses as an
integer does not stay a string — `_extract_tool_calls` strips the quotes
first and then still applies the `int(value)` coercion, so
`provider_id="7"` yields the integer `7`, not the string `"7"`. -/
theorem C9_counterexample :
    extract_tool_calls "<tool_call>get_provider_locations(provider_id=\"7\")</tool_call>"
        = [⟨"get_provider_locations", [("provider_id", PyVal.int 7)]⟩]
      ∧ PyVal.int 7 ≠ PyVal.str "7" := by
  exact ⟨by decide, by decide⟩

/-- C9 (amended): the extractor is a total function; a message without the
opening envelope tag yields zero requested invocations; over any message
built from envelopes interleaved with tag-free text, the extractor returns
exactly the well-formed envelopes' calls in order — each
`name(key="value", key2=123)`-style envelope becomes the invocation with
that name and its comma-separated argument pairs parsed by the value
grammar, while malformed envelopes (whose stripped body fails the
call-expression match) are silently skipped; and a double- or single-quoted
value has its quotes stripped and is then still coerced to an integer
exactly when the inner text parses as one — only otherwise does it stay a
string. -/
theorem C9_extractor :
    (∀ s : String, splitFirst s.data openTagChars = none → extract_tool_calls s = [])
      ∧ (∀ (l : List EnvPiece) (trail : List Char),
          (∀ p ∈ l, pieceOk p) → '<' ∉ trail →
          extract_tool_calls (String.mk (envMsg l trail))
            = (l.map EnvPiece.calls).flatten)
      ∧ (∀ (q : Char) (inner : List Char), q = '"' ∨ q = squote →
          parseValue (q :: (inner ++ [q]))
            = (match pyInt? inner with
               | some n => PyVal.int n
               | none => PyVal.str (String.mk inner))) :=
  ⟨extract_no_envelope, extract_envelopes,
   fun q inner hq => parseValue_quoted_any q inner hq⟩

set_option maxRecDepth 400000 in
/-- Witness for C9: the amended extractor facts at concrete inputs — a
two-envelope message whose well-formed envelope carries the comma-separated
arguments `key="value", key2=123` and whose second envelope is malformed,
plus a single-quoted numeric value and a double-quoted non-numeric one. -/
theorem C9_witness :
    extract_tool_calls "no tools here" = []
      ∧ extract_tool_calls (String.mk (envMsg
            [EnvPiece.good "Ok ".data "f1".data
               [("key".data, "\"value\"".data), ("key2".data, "123".data)],
             EnvPiece.bad " ".data "broken(".data]
            " done".data))
          = ([EnvPiece.good "Ok ".data "f1".data
                [("key".data, "\"value\"".data), ("key2".data, "123".data)],
              EnvPiece.bad " ".data "broken(".data].map EnvPiece.calls).flatten
      ∧ ([EnvPiece.good "Ok ".data "f1".data
            [("key".data, "\"value\"".data), ("key2".data, "123".data)],
          EnvPiece.bad " ".data "broken(".data].map EnvPiece.calls).flatten
          = [⟨"f1", [("key", PyVal.str "value"), ("key2", PyVal.int 123)]⟩]
      ∧ parseValue (squote :: ("42".data ++ [squote]))
          = (match pyInt? "42".data with
             | some n => PyVal.int n
             | none => PyVal.str (String.mk "42".data))
      ∧ parseValue ('"' :: ("hi".data ++ ['"']))
          = (match pyInt? "hi".data with
             | some n => PyVal.int n
             | none => PyVal.str (String.mk "hi".data)) := by
  refine ⟨C9_extractor.1 "no tools here" (by decide),
    C9_extractor.2.1 _ _ ?_ (by decide),
    by decide,
    C9_extractor.2.2 squote "42".data (Or.inr rfl),
    C9_extractor.2.2 '"' "hi".data (Or.inl rfl)⟩
  intro p hp
  rcases List.mem_cons.mp hp with rfl | hp
  · refine ⟨by decide, by decide, by decide, ?_, by decide⟩
    intro kv hkv
    rcases List.mem_cons.mp hkv with rfl | hkv
    · exact ⟨by decide, by decide, by decide, by decide, by decide, by decide, by decide⟩
    · rcases List.mem_cons.mp hkv with rfl | hkv
      · exact ⟨by decide, by decide, by decide, by decide, by decide, by decide, by decide⟩
      · exact absurd hkv (List.not_mem_nil kv)
  · rcases List.mem_cons.mp hp with rfl | hp
    · exact ⟨by decide, by decide, by decide⟩
    · exact absurd hp (List.not_mem_nil p)
